import Mathlib

/-!
# LCD74HC595: an HD44780 character LCD behind a 74HC595 shift register

A shallow embedding of `src/LCD74HC595.h` and `src/LCD74HC595.cpp`.

* `uint8_t` values are natural numbers; every place where the C++ narrows an
  `int` expression to `uint8_t` (an assignment, a compound assignment, an
  argument passed to a `uint8_t` parameter) carries an explicit `% 256`.
* The Arduino collaborators (`pinMode`, `digitalWrite`, `shiftOut`,
  `delayMicroseconds`) are recorded as events; a method is a function from the
  object state to the new state and the list of events it produced, in order.
* The read `_row_offsets[row]` is fallible: outside the four entries of the
  array it has no defined value, so `setCursor` returns an `Option`.
* Shifts `1<<rs`, `1<<en`, `x << _data_pin` are the mathematical shifts
  followed by the narrowing to 8 bits.
-/

/-! ## Constants of `LCD74HC595.h` -/

abbrev PIN_EN : Nat := 2
abbrev PIN_RS : Nat := 1
abbrev PIN_DATA : Nat := 3

abbrev LCD_CLEARDISPLAY : Nat := 0x01
abbrev LCD_RETURNHOME : Nat := 0x02
abbrev LCD_ENTRYMODESET : Nat := 0x04
abbrev LCD_DISPLAYCONTROL : Nat := 0x08
abbrev LCD_CURSORSHIFT : Nat := 0x10
abbrev LCD_FUNCTIONSET : Nat := 0x20
abbrev LCD_SETCGRAMADDR : Nat := 0x40
abbrev LCD_SETDDRAMADDR : Nat := 0x80

abbrev LCD_ENTRYRIGHT : Nat := 0x00
abbrev LCD_ENTRYLEFT : Nat := 0x02
abbrev LCD_ENTRYSHIFTINCREMENT : Nat := 0x01
abbrev LCD_ENTRYSHIFTDECREMENT : Nat := 0x00

abbrev LCD_DISPLAYON : Nat := 0x04
abbrev LCD_DISPLAYOFF : Nat := 0x00
abbrev LCD_CURSORON : Nat := 0x02
abbrev LCD_CURSOROFF : Nat := 0x00
abbrev LCD_BLINKON : Nat := 0x01
abbrev LCD_BLINKOFF : Nat := 0x00

abbrev LCD_DISPLAYMOVE : Nat := 0x08
abbrev LCD_CURSORMOVE : Nat := 0x00
abbrev LCD_MOVERIGHT : Nat := 0x04
abbrev LCD_MOVELEFT : Nat := 0x00

abbrev LCD_2LINE : Nat := 0x08
abbrev LCD_1LINE : Nat := 0x00
abbrev LCD_5x10DOTS : Nat := 0x04
abbrev LCD_5x8DOTS : Nat := 0x00

/-! ## Arduino collaborators, as events -/

/-- Arduino level `LOW`. -/
abbrev LOW : Bool := false
/-- Arduino level `HIGH`. -/
abbrev HIGH : Bool := true
/-- Arduino bit order `MSBFIRST`. -/
abbrev MSBFIRST : Bool := true

/-- One call of an Arduino core function made by the driver. -/
inductive Event where
  /-- The call `pinMode(pin, OUTPUT)`. -/
  | pinMode (pin : Nat)
  /-- The call `digitalWrite(pin, val)`. -/
  | digitalWrite (pin : Nat) (val : Bool)
  /-- The call `shiftOut(dataPin, clockPin, bitOrder, val)`. -/
  | shiftOut (dataPin clockPin : Nat) (msbFirst : Bool) (val : Nat)
  /-- The call `delayMicroseconds(us)`. -/
  | delayMicroseconds (us : Nat)
  deriving DecidableEq, Repr

/-! ## Object state -/

/-- The array `uint8_t _row_offsets[4]`. -/
structure RowOffsets where
  e0 : Nat
  e1 : Nat
  e2 : Nat
  e3 : Nat
  deriving DecidableEq, Repr

/-- The read `_row_offsets[i]`; no value outside the array. -/
def RowOffsets.get? (t : RowOffsets) : Nat → Option Nat
  | 0 => some t.e0
  | 1 => some t.e1
  | 2 => some t.e2
  | 3 => some t.e3
  | _ => none

/-- The private data members of `class LCD74HC595`. -/
structure LCD74HC595 where
  _ds_pin : Nat
  _shcp_pin : Nat
  _stcp_pin : Nat
  _data_pin : Nat
  _rs_mask : Nat
  _en_mask : Nat
  _displayfunction : Nat
  _displaycontrol : Nat
  _displaymode : Nat
  _numlines : Nat
  _row_offsets : RowOffsets
  deriving DecidableEq, Repr

namespace LCD74HC595

/-- The result of a `void` method: the state after the call and the events of
the call. -/
abbrev Out := LCD74HC595 × List Event

/-- The expression `x & ~m` narrowed to `uint8_t`, as in `field &= ~FLAG`. -/
def andNot (x m : Nat) : Nat := x &&& (0xFF ^^^ m)

/-- Constructor `LCD74HC595::LCD74HC595(ds, shcp, stcp, rs, en, data)`. The
members it does not assign keep what the storage `mem` held. -/
def ctor (ds shcp stcp : Nat) (rs en data : Nat) (mem : LCD74HC595) : Out :=
  let s := { mem with _data_pin := data }
  let s := { s with _rs_mask := (1 <<< rs) % 256 }
  let s := { s with _en_mask := (1 <<< en) % 256 }
  let s := { s with _ds_pin := ds }
  let s := { s with _shcp_pin := shcp }
  let s := { s with _stcp_pin := stcp }
  let s := { s with _displayfunction := LCD_1LINE ||| LCD_5x8DOTS }
  (s, [Event.pinMode ds, Event.pinMode shcp, Event.pinMode stcp,
       Event.delayMicroseconds 50000])

/-- The local `data` of `send74595` at the call of `shiftOut`. -/
def shiftByte (s : LCD74HC595) (rs en data : Nat) : Nat :=
  let data := ((data &&& 0x0F) <<< s._data_pin) % 256
  let data := if rs ≠ 0 then (data ||| s._rs_mask) % 256 else data
  let data := if en ≠ 0 then (data ||| s._en_mask) % 256 else data
  data

/-- Method `LCD74HC595::send74595(rs, en, data)`. -/
def send74595 (s : LCD74HC595) (rs en data : Nat) : Out :=
  (s, [Event.digitalWrite s._stcp_pin LOW,
       Event.shiftOut s._ds_pin s._shcp_pin MSBFIRST (shiftByte s rs en data),
       Event.digitalWrite s._stcp_pin HIGH])

/-- Method `LCD74HC595::sendHalf(value, mode)`. -/
def sendHalf (s : LCD74HC595) (value mode : Nat) : Out :=
  let r1 := send74595 s mode 0 value
  let r2 := send74595 r1.1 mode 1 value
  let r3 := send74595 r2.1 mode 0 value
  (r3.1, r1.2 ++ [Event.delayMicroseconds 1] ++ r2.2 ++ [Event.delayMicroseconds 1]
          ++ r3.2 ++ [Event.delayMicroseconds 100])

/-- Method `LCD74HC595::send(value, mode)`. -/
def send (s : LCD74HC595) (value mode : Nat) : Out :=
  let r1 := sendHalf s ((value >>> 4) % 256) mode
  let r2 := sendHalf r1.1 value mode
  (r2.1, r1.2 ++ r2.2)

/-- Method `LCD74HC595::command(value)`. -/
def command (s : LCD74HC595) (value : Nat) : Out :=
  send s value 0

/-- Method `LCD74HC595::write(value)`: the returned count, then state and events. -/
def write (s : LCD74HC595) (value : Nat) : Nat × Out :=
  (1, send s value 1)

/-- Method `LCD74HC595::setRowOffsets(row0, row1, row2, row3)`; the `int`
arguments are narrowed to `uint8_t` by the assignments. -/
def setRowOffsets (s : LCD74HC595) (row0 row1 row2 row3 : Int) : Out :=
  ({ s with _row_offsets :=
      { e0 := (row0 % 256).toNat, e1 := (row1 % 256).toNat,
        e2 := (row2 % 256).toNat, e3 := (row3 % 256).toNat } }, [])

/-- Method `LCD74HC595::clear()`. -/
def clear (s : LCD74HC595) : Out :=
  let r := command s LCD_CLEARDISPLAY
  (r.1, r.2 ++ [Event.delayMicroseconds 2000])

/-- Method `LCD74HC595::home()`. -/
def home (s : LCD74HC595) : Out :=
  let r := command s LCD_RETURNHOME
  (r.1, r.2 ++ [Event.delayMicroseconds 2000])

/-- The local `row` of `setCursor` at the read of `_row_offsets[row]`. -/
def clampedRow (s : LCD74HC595) (row : Nat) : Nat :=
  let max_lines := 4
  let row := if row ≥ max_lines then (max_lines - 1) % 256 else row
  let row := if row ≥ s._numlines then (((s._numlines : Int) - 1) % 256).toNat else row
  row

/-- Method `LCD74HC595::setCursor(col, row)`; `none` when `_row_offsets[row]`
is read outside the array. -/
def setCursor (s : LCD74HC595) (col row : Nat) : Option Out :=
  match s._row_offsets.get? (clampedRow s row) with
  | some off => some (command s ((LCD_SETDDRAMADDR ||| (col + off)) % 256))
  | none => none

/-- Method `LCD74HC595::noDisplay()`. -/
def noDisplay (s : LCD74HC595) : Out :=
  let s := { s with _displaycontrol := andNot s._displaycontrol LCD_DISPLAYON }
  command s ((LCD_DISPLAYCONTROL ||| s._displaycontrol) % 256)

/-- Method `LCD74HC595::display()`. -/
def display (s : LCD74HC595) : Out :=
  let s := { s with _displaycontrol := (s._displaycontrol ||| LCD_DISPLAYON) % 256 }
  command s ((LCD_DISPLAYCONTROL ||| s._displaycontrol) % 256)

/-- Method `LCD74HC595::noCursor()`. -/
def noCursor (s : LCD74HC595) : Out :=
  let s := { s with _displaycontrol := andNot s._displaycontrol LCD_CURSORON }
  command s ((LCD_DISPLAYCONTROL ||| s._displaycontrol) % 256)

/-- Method `LCD74HC595::cursor()`. -/
def cursor (s : LCD74HC595) : Out :=
  let s := { s with _displaycontrol := (s._displaycontrol ||| LCD_CURSORON) % 256 }
  command s ((LCD_DISPLAYCONTROL ||| s._displaycontrol) % 256)

/-- Method `LCD74HC595::noBlink()`. -/
def noBlink (s : LCD74HC595) : Out :=
  let s := { s with _displaycontrol := andNot s._displaycontrol LCD_BLINKON }
  command s ((LCD_DISPLAYCONTROL ||| s._displaycontrol) % 256)

/-- Method `LCD74HC595::blink()`. -/
def blink (s : LCD74HC595) : Out :=
  let s := { s with _displaycontrol := (s._displaycontrol ||| LCD_BLINKON) % 256 }
  command s ((LCD_DISPLAYCONTROL ||| s._displaycontrol) % 256)

/-- Method `LCD74HC595::scrollDisplayLeft()`. -/
def scrollDisplayLeft (s : LCD74HC595) : Out :=
  command s ((LCD_CURSORSHIFT ||| LCD_DISPLAYMOVE ||| LCD_MOVELEFT) % 256)

/-- Method `LCD74HC595::scrollDisplayRight()`. -/
def scrollDisplayRight (s : LCD74HC595) : Out :=
  command s ((LCD_CURSORSHIFT ||| LCD_DISPLAYMOVE ||| LCD_MOVERIGHT) % 256)

/-- Method `LCD74HC595::leftToRight()`. -/
def leftToRight (s : LCD74HC595) : Out :=
  let s := { s with _displaymode := (s._displaymode ||| LCD_ENTRYLEFT) % 256 }
  command s ((LCD_ENTRYMODESET ||| s._displaymode) % 256)

/-- Method `LCD74HC595::rightToLeft()`. -/
def rightToLeft (s : LCD74HC595) : Out :=
  let s := { s with _displaymode := andNot s._displaymode LCD_ENTRYLEFT }
  command s ((LCD_ENTRYMODESET ||| s._displaymode) % 256)

/-- Method `LCD74HC595::autoscroll()`. -/
def autoscroll (s : LCD74HC595) : Out :=
  let s := { s with _displaymode := (s._displaymode ||| LCD_ENTRYSHIFTINCREMENT) % 256 }
  command s ((LCD_ENTRYMODESET ||| s._displaymode) % 256)

/-- Method `LCD74HC595::noAutoscroll()`. -/
def noAutoscroll (s : LCD74HC595) : Out :=
  let s := { s with _displaymode := andNot s._displaymode LCD_ENTRYSHIFTINCREMENT }
  command s ((LCD_ENTRYMODESET ||| s._displaymode) % 256)

/-- One pass of the body of the `for` loop of `createChar`, at index `i`. -/
def createCharBody (charmap : Nat → Nat) (acc : Out) (i : Nat) : Out :=
  let r := write acc.1 (charmap i)
  (r.2.1, acc.2 ++ r.2.2)

/-- Method `LCD74HC595::createChar(location, charmap)`; `charmap i` is the byte
read as `charmap[i]`. -/
def createChar (s : LCD74HC595) (location : Nat) (charmap : Nat → Nat) : Out :=
  let location := location &&& 0x7
  let r := command s ((LCD_SETCGRAMADDR ||| (location <<< 3)) % 256)
  (List.range 8).foldl (createCharBody charmap) r

/-- Method `LCD74HC595::begin(cols, lines, dotsize)`. -/
def begin (s : LCD74HC595) (cols lines dotsize : Nat) : Out :=
  let s := if lines > 1
    then { s with _displayfunction := (s._displayfunction ||| LCD_2LINE) % 256 } else s
  let s := { s with _numlines := lines }
  let r0 := setRowOffsets s 0x00 0x40 (0x00 + (cols : Int)) (0x40 + (cols : Int))
  let s := r0.1
  let s := if dotsize ≠ LCD_5x8DOTS ∧ lines = 1
    then { s with _displayfunction := (s._displayfunction ||| LCD_5x10DOTS) % 256 } else s
  let r1 := sendHalf s 0x03 0
  let r2 := sendHalf r1.1 0x03 0
  let r3 := sendHalf r2.1 0x03 0
  let r4 := sendHalf r3.1 0x02 0
  let r5 := command r4.1 ((LCD_FUNCTIONSET ||| r4.1._displayfunction) % 256)
  let s := { r5.1 with _displaycontrol := LCD_DISPLAYON ||| LCD_CURSOROFF ||| LCD_BLINKOFF }
  let r6 := display s
  let r7 := clear r6.1
  let s := { r7.1 with _displaymode := LCD_ENTRYLEFT ||| LCD_ENTRYSHIFTDECREMENT }
  let r8 := command s ((LCD_ENTRYMODESET ||| s._displaymode) % 256)
  (r8.1, r0.2 ++ r1.2 ++ [Event.delayMicroseconds 4500]
          ++ r2.2 ++ [Event.delayMicroseconds 4500]
          ++ r3.2 ++ [Event.delayMicroseconds 150]
          ++ r4.2 ++ r5.2 ++ r6.2 ++ r7.2 ++ r8.2)

end LCD74HC595

/-! ## Pin assignment -/

/-- A valid pin assignment: the four data bits `dataPos .. dataPos+3`, the
register-select bit and the enable bit are six different bits of the byte. -/
def ValidPins (rsPos enPos dataPos : Nat) : Prop :=
  dataPos ≤ 4 ∧ rsPos < 8 ∧ enPos < 8 ∧ rsPos ≠ enPos ∧
    (rsPos < dataPos ∨ dataPos + 3 < rsPos) ∧ (enPos < dataPos ∨ dataPos + 3 < enPos)

instance (rsPos enPos dataPos : Nat) : Decidable (ValidPins rsPos enPos dataPos) := by
  unfold ValidPins; infer_instance

/-! ## Public interface and observations on event traces -/

namespace LCD74HC595

/-- A call of a public method of the class, with its arguments. -/
inductive Op where
  | begin (cols lines dotsize : Nat)
  | clear
  | home
  | noDisplay
  | display
  | noBlink
  | blink
  | noCursor
  | cursor
  | scrollDisplayLeft
  | scrollDisplayRight
  | leftToRight
  | rightToLeft
  | autoscroll
  | noAutoscroll
  | setRowOffsets (row0 row1 row2 row3 : Int)
  | createChar (location : Nat) (charmap : Nat → Nat)
  | setCursor (col row : Nat)
  | write (value : Nat)
  | command (value : Nat)

/-- Running a public method call on an object; `none` when the call reads
`_row_offsets` outside the array. -/
def Op.run : Op → LCD74HC595 → Option Out
  | Op.begin cols lines dotsize, s => some (LCD74HC595.begin s cols lines dotsize)
  | Op.clear, s => some (LCD74HC595.clear s)
  | Op.home, s => some (LCD74HC595.home s)
  | Op.noDisplay, s => some (LCD74HC595.noDisplay s)
  | Op.display, s => some (LCD74HC595.display s)
  | Op.noBlink, s => some (LCD74HC595.noBlink s)
  | Op.blink, s => some (LCD74HC595.blink s)
  | Op.noCursor, s => some (LCD74HC595.noCursor s)
  | Op.cursor, s => some (LCD74HC595.cursor s)
  | Op.scrollDisplayLeft, s => some (LCD74HC595.scrollDisplayLeft s)
  | Op.scrollDisplayRight, s => some (LCD74HC595.scrollDisplayRight s)
  | Op.leftToRight, s => some (LCD74HC595.leftToRight s)
  | Op.rightToLeft, s => some (LCD74HC595.rightToLeft s)
  | Op.autoscroll, s => some (LCD74HC595.autoscroll s)
  | Op.noAutoscroll, s => some (LCD74HC595.noAutoscroll s)
  | Op.setRowOffsets row0 row1 row2 row3, s =>
      some (LCD74HC595.setRowOffsets s row0 row1 row2 row3)
  | Op.createChar location charmap, s => some (LCD74HC595.createChar s location charmap)
  | Op.setCursor col row, s => LCD74HC595.setCursor s col row
  | Op.write value, s => some (LCD74HC595.write s value).2
  | Op.command value, s => some (LCD74HC595.command s value)

/-- Whether an event is a call of `shiftOut`. -/
def isShift : Event → Bool
  | Event.shiftOut _ _ _ _ => true
  | _ => false

/-- Replays a trace against the level of the latch-clock pin `stcp` as last
written by `digitalWrite` (`none`: not written yet) and checks that the level
is `LOW` at every `shiftOut`. -/
def shiftsWhileLatchLow (stcp : Nat) : Option Bool → List Event → Bool
  | _, [] => true
  | lvl, Event.digitalWrite p v :: t =>
      shiftsWhileLatchLow stcp (if p = stcp then some v else lvl) t
  | lvl, Event.shiftOut _ _ _ _ :: t => (lvl == some LOW) && shiftsWhileLatchLow stcp lvl t
  | lvl, Event.pinMode _ :: t => shiftsWhileLatchLow stcp lvl t
  | lvl, Event.delayMicroseconds _ :: t => shiftsWhileLatchLow stcp lvl t

/-- The shape of the traces of the driver: a sequence of delays and of emits,
an emit being latch low, one shift of a byte, latch high. -/
inductive Framed (s : LCD74HC595) : List Event → Prop where
  | nil : Framed s []
  | delay (us : Nat) {t : List Event} :
      Framed s t → Framed s (Event.delayMicroseconds us :: t)
  | emit (v : Nat) {t : List Event} : v < 256 → Framed s t →
      Framed s (Event.digitalWrite s._stcp_pin LOW
        :: Event.shiftOut s._ds_pin s._shcp_pin MSBFIRST v
        :: Event.digitalWrite s._stcp_pin HIGH :: t)

/-- Zeroed storage for an object, before its constructor runs. -/
def zeroed : LCD74HC595 := ⟨0, 0, 0, 0, 0, 0, 0, 0, 0, 0, ⟨0, 0, 0, 0⟩⟩

/-- The object built by `LCD74HC595 lcd(11, 12, 8);` (default bit positions) in
zeroed storage. -/
def lcd0 : LCD74HC595 := (ctor 11 12 8 PIN_RS PIN_EN PIN_DATA zeroed).1

/-- The byte described by the specification of `emit`: nibble in its field,
register-select and enable OR-ed in at their positions, truncated to 8 bits. -/
def composedByte (rsPos enPos dataPos rs en data : Nat) : Nat :=
  (((data &&& 0x0F) <<< dataPos)
    ||| (if rs ≠ 0 then 1 <<< rsPos else 0)
    ||| (if en ≠ 0 then 1 <<< enPos else 0)) % 256

end LCD74HC595

namespace LCD74HC595

/-- The members fixed by the constructor: the three transport pins, the
position of the data nibble and the two control masks. -/
def wiring (s : LCD74HC595) : Nat × Nat × Nat × Nat × Nat × Nat :=
  (s._ds_pin, s._shcp_pin, s._stcp_pin, s._data_pin, s._rs_mask, s._en_mask)

/-- Running public method calls one after the other; the events are those of
the calls in order. -/
def runOps : List Op → LCD74HC595 → Option Out
  | [], s => some (s, [])
  | op :: rest, s =>
    match op.run s with
    | none => none
    | some r1 =>
      match runOps rest r1.1 with
      | none => none
      | some r2 => some (r2.1, r1.2 ++ r2.2)

/-- The three groups of one-command operations of the facade. -/
inductive FlagGroup where
  | control
  | entryMode
  | shift
  deriving DecidableEq, Repr

/-- The public operations that send one command byte built from an opcode and
flags: the display-control operations, the entry-mode operations and the two
scroll operations. -/
inductive FlagOp where
  | noDisplay
  | display
  | noCursor
  | cursor
  | noBlink
  | blink
  | scrollDisplayLeft
  | scrollDisplayRight
  | leftToRight
  | rightToLeft
  | autoscroll
  | noAutoscroll
  deriving DecidableEq, Repr

/-- The method a flag operation stands for. -/
def FlagOp.run : FlagOp → LCD74HC595 → Out
  | FlagOp.noDisplay, s => LCD74HC595.noDisplay s
  | FlagOp.display, s => LCD74HC595.display s
  | FlagOp.noCursor, s => LCD74HC595.noCursor s
  | FlagOp.cursor, s => LCD74HC595.cursor s
  | FlagOp.noBlink, s => LCD74HC595.noBlink s
  | FlagOp.blink, s => LCD74HC595.blink s
  | FlagOp.scrollDisplayLeft, s => LCD74HC595.scrollDisplayLeft s
  | FlagOp.scrollDisplayRight, s => LCD74HC595.scrollDisplayRight s
  | FlagOp.leftToRight, s => LCD74HC595.leftToRight s
  | FlagOp.rightToLeft, s => LCD74HC595.rightToLeft s
  | FlagOp.autoscroll, s => LCD74HC595.autoscroll s
  | FlagOp.noAutoscroll, s => LCD74HC595.noAutoscroll s

/-- The same call as a public method call. -/
def FlagOp.toOp : FlagOp → Op
  | FlagOp.noDisplay => Op.noDisplay
  | FlagOp.display => Op.display
  | FlagOp.noCursor => Op.noCursor
  | FlagOp.cursor => Op.cursor
  | FlagOp.noBlink => Op.noBlink
  | FlagOp.blink => Op.blink
  | FlagOp.scrollDisplayLeft => Op.scrollDisplayLeft
  | FlagOp.scrollDisplayRight => Op.scrollDisplayRight
  | FlagOp.leftToRight => Op.leftToRight
  | FlagOp.rightToLeft => Op.rightToLeft
  | FlagOp.autoscroll => Op.autoscroll
  | FlagOp.noAutoscroll => Op.noAutoscroll

/-- The group of a flag operation, by the opcode of the command it sends. -/
def FlagOp.group : FlagOp → FlagGroup
  | FlagOp.noDisplay => FlagGroup.control
  | FlagOp.display => FlagGroup.control
  | FlagOp.noCursor => FlagGroup.control
  | FlagOp.cursor => FlagGroup.control
  | FlagOp.noBlink => FlagGroup.control
  | FlagOp.blink => FlagGroup.control
  | FlagOp.scrollDisplayLeft => FlagGroup.shift
  | FlagOp.scrollDisplayRight => FlagGroup.shift
  | FlagOp.leftToRight => FlagGroup.entryMode
  | FlagOp.rightToLeft => FlagGroup.entryMode
  | FlagOp.autoscroll => FlagGroup.entryMode
  | FlagOp.noAutoscroll => FlagGroup.entryMode

/-- The bit that a flag operation sets or clears in the mask of its group, as a
bit index: display 0x04, cursor 0x02, blink 0x01 of the control mask; text
direction 0x02, autoscroll 0x01 of the entry-mode mask. The scroll operations
have no cached flag (index 8 is outside the masks). -/
def FlagOp.ownBit : FlagOp → Nat
  | FlagOp.noDisplay => 2
  | FlagOp.display => 2
  | FlagOp.noCursor => 1
  | FlagOp.cursor => 1
  | FlagOp.noBlink => 0
  | FlagOp.blink => 0
  | FlagOp.scrollDisplayLeft => 8
  | FlagOp.scrollDisplayRight => 8
  | FlagOp.leftToRight => 1
  | FlagOp.rightToLeft => 1
  | FlagOp.autoscroll => 0
  | FlagOp.noAutoscroll => 0

/-- Running flag operations one after the other. -/
def runFlagOps : List FlagOp → LCD74HC595 → Out
  | [], s => (s, [])
  | c :: rest, s =>
    let r1 := c.run s
    let r2 := runFlagOps rest r1.1
    (r2.1, r1.2 ++ r2.2)

/-- The events of the most recent operation of group `g` in a run of flag
operations from `s`; `none` when the run has no operation of that group. -/
def lastOfGroup (g : FlagGroup) : List FlagOp → LCD74HC595 → Option (List Event)
  | [], _ => none
  | c :: rest, s =>
    match lastOfGroup g rest (c.run s).1 with
    | some t => some t
    | none => if c.group = g then some (c.run s).2 else none

/-- Whether an event is a call of `delayMicroseconds`. -/
def isDelay : Event → Bool
  | Event.delayMicroseconds _ => true
  | _ => false

/-- The number of emits (calls of `send74595`) of a public method call, by
method. -/
def Op.emits : Op → Nat
  | Op.begin _ _ _ => 36
  | Op.clear => 6
  | Op.home => 6
  | Op.noDisplay => 6
  | Op.display => 6
  | Op.noBlink => 6
  | Op.blink => 6
  | Op.noCursor => 6
  | Op.cursor => 6
  | Op.scrollDisplayLeft => 6
  | Op.scrollDisplayRight => 6
  | Op.leftToRight => 6
  | Op.rightToLeft => 6
  | Op.autoscroll => 6
  | Op.noAutoscroll => 6
  | Op.setRowOffsets _ _ _ _ => 0
  | Op.createChar _ _ => 54
  | Op.setCursor _ _ => 6
  | Op.write _ => 6
  | Op.command _ => 6

/-- The number of delays of a public method call, by method. -/
def Op.delays : Op → Nat
  | Op.begin _ _ _ => 40
  | Op.clear => 7
  | Op.home => 7
  | Op.noDisplay => 6
  | Op.display => 6
  | Op.noBlink => 6
  | Op.blink => 6
  | Op.noCursor => 6
  | Op.cursor => 6
  | Op.scrollDisplayLeft => 6
  | Op.scrollDisplayRight => 6
  | Op.leftToRight => 6
  | Op.rightToLeft => 6
  | Op.autoscroll => 6
  | Op.noAutoscroll => 6
  | Op.setRowOffsets _ _ _ _ => 0
  | Op.createChar _ _ => 54
  | Op.setCursor _ _ => 6
  | Op.write _ => 6
  | Op.command _ => 6

/-- The bytes latched onto the outputs of the shift register by a trace: the
values passed to `shiftOut`, in order. -/
def latchedBytes : List Event → List Nat
  | [] => []
  | Event.shiftOut _ _ _ v :: t => v :: latchedBytes t
  | Event.pinMode _ :: t => latchedBytes t
  | Event.digitalWrite _ _ :: t => latchedBytes t
  | Event.delayMicroseconds _ :: t => latchedBytes t

/-- The shape of the bytes latched by the driver, seen at bit `enPos`: a sequence
of enable pulses, each pulse being a byte with bit `enPos` clear, the same byte
with bit `enPos` set, and the first byte again. -/
inductive Pulsed (enPos : Nat) : List Nat → Prop where
  | nil : Pulsed enPos []
  | pulse (b0 b1 : Nat) {t : List Nat} : b0.testBit enPos = false → b1.testBit enPos = true →
      (∀ j, j ≠ enPos → b1.testBit j = b0.testBit j) → Pulsed enPos t →
      Pulsed enPos (b0 :: b1 :: b0 :: t)

end LCD74HC595

/-! # Theorems -/

namespace LCD74HC595

/-! ## Basic facts about the transport -/

theorem mod256_and15 (d : Nat) : (d % 256) &&& 15 = d &&& 15 := by
  have h1 : (15 : Nat) = 2 ^ 4 - 1 := by norm_num
  rw [h1, Nat.and_pow_two_sub_one_eq_mod, Nat.and_pow_two_sub_one_eq_mod]
  exact Nat.mod_mod_of_dvd d (by norm_num)

theorem and15_and15 (d : Nat) : (d &&& 15) &&& 15 = d &&& 15 := by
  rw [Nat.and_assoc, Nat.and_self]

theorem shiftByte_mod256 (s : LCD74HC595) (rs en d : Nat) :
    shiftByte s rs en (d % 256) = shiftByte s rs en d := by
  simp only [shiftByte, mod256_and15]

theorem shiftByte_and15 (s : LCD74HC595) (rs en d : Nat) :
    shiftByte s rs en (d &&& 0xF) = shiftByte s rs en d := by
  simp only [shiftByte, and15_and15]

theorem shiftByte_lt (s : LCD74HC595) (rs en d : Nat) : shiftByte s rs en d < 256 := by
  simp only [shiftByte]
  split <;> split <;> exact Nat.mod_lt _ (by norm_num)

theorem send74595_state (s : LCD74HC595) (rs en d : Nat) : (send74595 s rs en d).1 = s := rfl

theorem sendHalf_state (s : LCD74HC595) (v mode : Nat) : (sendHalf s v mode).1 = s := rfl

theorem send_state (s : LCD74HC595) (v mode : Nat) : (send s v mode).1 = s := rfl

theorem command_state (s : LCD74HC595) (v : Nat) : (command s v).1 = s := rfl

theorem sendHalf_mod256 (s : LCD74HC595) (v mode : Nat) :
    sendHalf s (v % 256) mode = sendHalf s v mode := by
  simp only [sendHalf, send74595, shiftByte_mod256]

theorem sendHalf_and15 (s : LCD74HC595) (v mode : Nat) :
    sendHalf s (v &&& 0xF) mode = sendHalf s v mode := by
  simp only [sendHalf, send74595, shiftByte_and15]

/-! ## Transfers -/

/-- C1: for every value `v` and mode, `send(v, mode)` leaves the object unchanged
and produces exactly the events of `sendHalf(v>>4, mode)` followed by the events
of `sendHalf(v&0xF, mode)`: two half-transfers, high nibble first, same mode. -/
theorem send_high_then_low_nibble (s : LCD74HC595) (v mode : Nat) :
    (send s v mode).2 = (sendHalf s (v >>> 4) mode).2 ++ (sendHalf s (v &&& 0xF) mode).2
    ∧ (send s v mode).1 = s := by
  refine ⟨?_, rfl⟩
  simp only [send, sendHalf_state, sendHalf_mod256, sendHalf_and15]

/-- C2: `sendHalf(value, mode)` is exactly: emit with enable 0, a delay of 1 µs,
emit with enable 1, a delay of 1 µs, emit with enable 0, a delay of 100 µs (more
than 37 µs); the three emits have the same register-select and nibble, and the
byte of the middle one is the byte of the outer ones with the enable mask OR-ed in. -/
theorem sendHalf_enable_pulse (s : LCD74HC595) (value mode : Nat) :
    (∃ d1 d2 d3, 1 ≤ d1 ∧ 1 ≤ d2 ∧ 100 ≤ d3 ∧ 37 < d3 ∧
      (sendHalf s value mode).2 =
        (send74595 s mode 0 value).2 ++ [Event.delayMicroseconds d1]
          ++ (send74595 s mode 1 value).2 ++ [Event.delayMicroseconds d2]
          ++ (send74595 s mode 0 value).2 ++ [Event.delayMicroseconds d3])
    ∧ (sendHalf s value mode).2 =
        [Event.digitalWrite s._stcp_pin LOW,
         Event.shiftOut s._ds_pin s._shcp_pin MSBFIRST (shiftByte s mode 0 value),
         Event.digitalWrite s._stcp_pin HIGH,
         Event.delayMicroseconds 1,
         Event.digitalWrite s._stcp_pin LOW,
         Event.shiftOut s._ds_pin s._shcp_pin MSBFIRST (shiftByte s mode 1 value),
         Event.digitalWrite s._stcp_pin HIGH,
         Event.delayMicroseconds 1,
         Event.digitalWrite s._stcp_pin LOW,
         Event.shiftOut s._ds_pin s._shcp_pin MSBFIRST (shiftByte s mode 0 value),
         Event.digitalWrite s._stcp_pin HIGH,
         Event.delayMicroseconds 100]
    ∧ shiftByte s mode 1 value = (shiftByte s mode 0 value ||| s._en_mask) % 256
    ∧ (sendHalf s value mode).1 = s := by
  refine ⟨⟨1, 1, 100, by decide, by decide, by decide, by decide, rfl⟩, rfl, ?_, rfl⟩
  simp [shiftByte]


theorem testBit_mod256 (x i : Nat) :
    (x % 256).testBit i = (decide (i < 8) && x.testBit i) := by
  have h := Nat.testBit_mod_two_pow x 8 i
  simpa using h

theorem testBit_15 (i : Nat) : (15 : Nat).testBit i = decide (i < 4) := by
  have h := Nat.testBit_two_pow_sub_one 4 i
  simpa using h

theorem or_mod256 (a b : Nat) : (a ||| b % 256) % 256 = (a ||| b) % 256 := by
  apply Nat.eq_of_testBit_eq
  intro i
  simp only [testBit_mod256, Nat.testBit_or]
  cases decide (i < 8) <;> simp

theorem mod256_or (a b : Nat) : (a % 256 ||| b) % 256 = (a ||| b) % 256 := by
  rw [Nat.lor_comm, or_mod256, Nat.lor_comm]

theorem mod256_mod256 (a : Nat) : a % 256 % 256 = a % 256 := Nat.mod_mod _ _

theorem shiftByte_ctor (ds shcp stcp rsPos enPos dataPos : Nat) (mem : LCD74HC595)
    (rs en data : Nat) :
    shiftByte (ctor ds shcp stcp rsPos enPos dataPos mem).1 rs en data
      = composedByte rsPos enPos dataPos rs en data := by
  simp only [shiftByte, ctor, composedByte]
  by_cases hrs : rs = 0 <;> by_cases hen : en = 0 <;>
    simp [hrs, hen, or_mod256, mod256_or]

theorem testBit_composedByte (rsPos enPos dataPos rs en data i : Nat) :
    (composedByte rsPos enPos dataPos rs en data).testBit i
      = (decide (i < 8) &&
          ((decide (dataPos ≤ i) && (decide (i - dataPos < 4) && data.testBit (i - dataPos)))
            || (decide (rs ≠ 0) && decide (rsPos = i))
            || (decide (en ≠ 0) && decide (enPos = i)))) := by
  simp only [composedByte, testBit_mod256, Nat.testBit_or, Nat.testBit_shiftLeft,
    Nat.testBit_and, testBit_15]
  by_cases hrs : rs = 0 <;> by_cases hen : en = 0 <;>
    simp [hrs, hen, Nat.one_shiftLeft, Nat.testBit_two_pow, Bool.and_comm]


/-- C3: on an object constructed with positions `rsPos`, `enPos`, `dataPos`,
`send74595(rs, en, data)` shifts out exactly
`((data & 0x0F) << dataPos | (rs ? 1<<rsPos : 0) | (en ? 1<<enPos : 0)) mod 256`;
when the pin assignment is valid the fields read back exactly: bits
`dataPos..dataPos+3` are `data & 0x0F`, bit `rsPos` is set iff `rs ≠ 0`, bit
`enPos` is set iff `en ≠ 0`, every other bit is 0. -/
theorem send74595_byte_layout (ds shcp stcp rsPos enPos dataPos : Nat) (mem : LCD74HC595)
    (rs en data : Nat) :
    (send74595 (ctor ds shcp stcp rsPos enPos dataPos mem).1 rs en data).2
        = [Event.digitalWrite stcp LOW,
           Event.shiftOut ds shcp MSBFIRST
             ((((data &&& 0x0F) <<< dataPos)
                ||| (if rs ≠ 0 then 1 <<< rsPos else 0)
                ||| (if en ≠ 0 then 1 <<< enPos else 0)) % 256),
           Event.digitalWrite stcp HIGH]
    ∧ (ValidPins rsPos enPos dataPos →
        ∀ b, b = (((data &&& 0x0F) <<< dataPos)
                ||| (if rs ≠ 0 then 1 <<< rsPos else 0)
                ||| (if en ≠ 0 then 1 <<< enPos else 0)) % 256 →
          (b >>> dataPos) &&& 0x0F = data &&& 0x0F
          ∧ b.testBit rsPos = decide (rs ≠ 0)
          ∧ b.testBit enPos = decide (en ≠ 0)
          ∧ ∀ i, ¬ (dataPos ≤ i ∧ i ≤ dataPos + 3) → i ≠ rsPos → i ≠ enPos →
              b.testBit i = false) := by
  constructor
  · have h := shiftByte_ctor ds shcp stcp rsPos enPos dataPos mem rs en data
    simp only [composedByte] at h
    simp only [send74595, h]
    simp [ctor]
  · rintro ⟨hd, hr, he, hne, hrd, hed⟩ b hb
    have hb' : b = composedByte rsPos enPos dataPos rs en data := by
      rw [hb]; rfl
    refine ⟨?_, ?_, ?_, ?_⟩
    · apply Nat.eq_of_testBit_eq
      intro j
      simp only [Nat.testBit_and, Nat.testBit_shiftRight, hb', testBit_composedByte, testBit_15]
      by_cases hj : j < 4
      · have h1 : dataPos + j < 8 := by omega
        have h2 : ¬ rsPos = dataPos + j := by omega
        have h3 : ¬ enPos = dataPos + j := by omega
        simp [hj, h1, h2, h3]
      · simp [hj]
    · rw [hb', testBit_composedByte]
      have h2 : ¬ (dataPos ≤ rsPos ∧ rsPos - dataPos < 4) := by omega
      have h3 : ¬ enPos = rsPos := by omega
      by_cases h4 : dataPos ≤ rsPos
      · have h5 : ¬ rsPos - dataPos < 4 := by omega
        simp [hr, h3, h4, h5]
      · simp [hr, h3, h4]
    · rw [hb', testBit_composedByte]
      by_cases h4 : dataPos ≤ enPos
      · have h5 : ¬ enPos - dataPos < 4 := by omega
        simp [he, hne, h4, h5]
      · simp [he, hne, h4]
    · intro i hi hir hie
      rw [hb', testBit_composedByte]
      have h2 : ¬ rsPos = i := fun h => hir h.symm
      have h3 : ¬ enPos = i := fun h => hie h.symm
      by_cases h4 : dataPos ≤ i
      · have h5 : ¬ i - dataPos < 4 := by omega
        simp [h2, h3, h4, h5]
      · simp [h2, h3, h4]

/-- Witness for C3 at the default pin assignment `PIN_RS = 1`, `PIN_EN = 2`,
`PIN_DATA = 3`, for `send74595(1, 1, 0x0A)` whose byte is `0x56`. -/
theorem send74595_byte_layout_witness :
    ValidPins PIN_RS PIN_EN PIN_DATA
    ∧ ((0x56 : Nat) >>> PIN_DATA) &&& 0x0F = 0x0A &&& 0x0F
    ∧ (0x56 : Nat).testBit PIN_RS = true
    ∧ (0x56 : Nat).testBit PIN_EN = true
    ∧ (0x56 : Nat).testBit 0 = false ∧ (0x56 : Nat).testBit 7 = false :=
  have hv : ValidPins PIN_RS PIN_EN PIN_DATA := by decide
  have h := (send74595_byte_layout 11 12 8 PIN_RS PIN_EN PIN_DATA
      ⟨0, 0, 0, 0, 0, 0, 0, 0, 0, 0, ⟨0, 0, 0, 0⟩⟩ 1 1 0x0A).2 hv 0x56 (by decide)
  ⟨hv, h.1, h.2.1, h.2.2.1, h.2.2.2 0 (by decide) (by decide) (by decide),
    h.2.2.2 7 (by decide) (by decide) (by decide)⟩


/-! ## Shape of the traces -/

theorem Framed.append {s : LCD74HC595} {a b : List Event} (ha : Framed s a) (hb : Framed s b) :
    Framed s (a ++ b) := by
  induction ha with
  | nil => simpa using hb
  | delay us _ ih => exact Framed.delay us ih
  | emit v hv _ ih => exact Framed.emit v hv ih

theorem framed_delay (s : LCD74HC595) (us : Nat) : Framed s [Event.delayMicroseconds us] :=
  Framed.delay us Framed.nil

theorem framed_send74595 (s : LCD74HC595) (rs en d : Nat) : Framed s (send74595 s rs en d).2 :=
  Framed.emit _ (shiftByte_lt s rs en d) Framed.nil

theorem framed_sendHalf (s : LCD74HC595) (v mode : Nat) : Framed s (sendHalf s v mode).2 := by
  simp only [sendHalf, send74595_state]
  exact ((((((framed_send74595 s mode 0 v).append (framed_delay s 1)).append
    (framed_send74595 s mode 1 v)).append (framed_delay s 1)).append
    (framed_send74595 s mode 0 v)).append (framed_delay s 100))

theorem framed_send (s : LCD74HC595) (v mode : Nat) : Framed s (send s v mode).2 := by
  simp only [send, sendHalf_state]
  exact (framed_sendHalf s _ mode).append (framed_sendHalf s v mode)

theorem framed_command (s : LCD74HC595) (v : Nat) : Framed s (command s v).2 :=
  framed_send s v 0

/-- Two objects with the same three transport pins have the same trace shape. -/
theorem Framed.of_pins {s s' : LCD74HC595} {t : List Event} (h : Framed s t)
    (h1 : s'._stcp_pin = s._stcp_pin) (h2 : s'._ds_pin = s._ds_pin)
    (h3 : s'._shcp_pin = s._shcp_pin) : Framed s' t := by
  induction h with
  | nil => exact Framed.nil
  | delay us _ ih => exact Framed.delay us ih
  | emit v hv _ ih =>
    rw [← h1, ← h2, ← h3]
    exact Framed.emit v hv ih


theorem and15_eq_mod (x : Nat) : x &&& 15 = x % 16 := by
  have h1 : (15 : Nat) = 2 ^ 4 - 1 := by norm_num
  rw [h1, Nat.and_pow_two_sub_one_eq_mod]

theorem framed_clear (s : LCD74HC595) : Framed s (clear s).2 :=
  (framed_command s _).append (framed_delay s 2000)

theorem framed_home (s : LCD74HC595) : Framed s (home s).2 :=
  (framed_command s _).append (framed_delay s 2000)

theorem framed_createChar (s : LCD74HC595) (location : Nat) (charmap : Nat → Nat) :
    Framed s (createChar s location charmap).2 := by
  have hr : List.range 8 = [0, 1, 2, 3, 4, 5, 6, 7] := by decide
  simp only [createChar, hr, List.foldl, createCharBody, write, command, send_state]
  exact ((((((((framed_send s _ 0).append (framed_send s _ 1)).append
    (framed_send s _ 1)).append (framed_send s _ 1)).append (framed_send s _ 1)).append
    (framed_send s _ 1)).append (framed_send s _ 1)).append (framed_send s _ 1)).append
    (framed_send s _ 1)

/-- The events of `begin`, written with the transfers of the object it was called on. -/
theorem begin_events (s : LCD74HC595) (cols lines dotsize : Nat) :
    (begin s cols lines dotsize).2 =
      (sendHalf s 0x03 0).2 ++ [Event.delayMicroseconds 4500]
        ++ (sendHalf s 0x03 0).2 ++ [Event.delayMicroseconds 4500]
        ++ (sendHalf s 0x03 0).2 ++ [Event.delayMicroseconds 150]
        ++ (sendHalf s 0x02 0).2
        ++ (send s ((LCD_FUNCTIONSET ||| (begin s cols lines dotsize).1._displayfunction) % 256) 0).2
        ++ (send s 0x0C 0).2
        ++ (send s 0x01 0).2 ++ [Event.delayMicroseconds 2000]
        ++ (send s 0x06 0).2 := by
  by_cases h1 : lines > 1 <;> by_cases h2 : (dotsize ≠ LCD_5x8DOTS ∧ lines = 1) <;>
    simp [begin, h1, h2, setRowOffsets, sendHalf, send74595, shiftByte, send, command,
      display, clear, and15_eq_mod, LCD_DISPLAYCONTROL, LCD_DISPLAYON, LCD_CLEARDISPLAY,
      LCD_ENTRYMODESET, LCD_ENTRYLEFT]


theorem framed_begin (s : LCD74HC595) (cols lines dotsize : Nat) :
    Framed s (begin s cols lines dotsize).2 := by
  rw [begin_events]
  exact (((((((((((framed_sendHalf s _ 0).append (framed_delay s _)).append
    (framed_sendHalf s _ 0)).append (framed_delay s _)).append
    (framed_sendHalf s _ 0)).append (framed_delay s _)).append
    (framed_sendHalf s _ 0)).append (framed_send s _ 0)).append (framed_send s _ 0)).append
    (framed_send s _ 0)).append (framed_delay s _)).append (framed_send s _ 0)

theorem framed_run (op : Op) (s : LCD74HC595) (out : Out) (h : op.run s = some out) :
    Framed s out.2 := by
  cases op with
  | setCursor col row =>
    simp only [Op.run, setCursor] at h
    split at h
    · simp only [Option.some.injEq] at h
      rw [← h]
      exact framed_command s _
    · exact absurd h (by simp)
  | begin cols lines dotsize =>
    simp only [Op.run, Option.some.injEq] at h
    rw [← h]
    exact framed_begin s cols lines dotsize
  | clear => simp only [Op.run, Option.some.injEq] at h; rw [← h]; exact framed_clear s
  | home => simp only [Op.run, Option.some.injEq] at h; rw [← h]; exact framed_home s
  | createChar location charmap =>
    simp only [Op.run, Option.some.injEq] at h
    rw [← h]
    exact framed_createChar s location charmap
  | setRowOffsets r0 r1 r2 r3 =>
    simp only [Op.run, Option.some.injEq] at h
    rw [← h]
    exact Framed.nil
  | write value =>
    simp only [Op.run, Option.some.injEq] at h
    rw [← h]
    exact framed_send s value 1
  | command value =>
    simp only [Op.run, Option.some.injEq] at h
    rw [← h]
    exact framed_command s value
  | _ =>
    simp only [Op.run, Option.some.injEq] at h
    rw [← h]
    exact (framed_command _ _).of_pins rfl rfl rfl

theorem Framed.shift_neighbours {s : LCD74HC595} {t : List Event} (h : Framed s t) :
    ∀ i d c m v, t[i]? = some (Event.shiftOut d c m v) →
      d = s._ds_pin ∧ c = s._shcp_pin ∧ m = MSBFIRST ∧ v < 256 ∧ 0 < i
        ∧ t[i - 1]? = some (Event.digitalWrite s._stcp_pin LOW)
        ∧ t[i + 1]? = some (Event.digitalWrite s._stcp_pin HIGH) := by
  induction h with
  | nil => intro i d c m v hi; simp at hi
  | delay us _ ih =>
    intro i d c m v hi
    match i, hi with
    | 0, hi => simp at hi
    | j + 1, hi =>
      simp only [List.getElem?_cons_succ] at hi
      obtain ⟨h1, h2, h3, h4, h5, h6, h7⟩ := ih j d c m v hi
      refine ⟨h1, h2, h3, h4, Nat.succ_pos _, ?_, ?_⟩
      · obtain ⟨k, rfl⟩ : ∃ k, j = k + 1 := ⟨j - 1, by omega⟩
        simpa using h6
      · simpa using h7
  | emit w hw _ ih =>
    intro i d c m v hi
    match i, hi with
    | 0, hi => simp at hi
    | 1, hi =>
      simp only [List.getElem?_cons_succ, List.getElem?_cons_zero, Option.some.injEq,
        Event.shiftOut.injEq] at hi
      obtain ⟨h1, h2, h3, h4⟩ := hi
      subst h1 h2 h3 h4
      exact ⟨rfl, rfl, rfl, hw, Nat.one_pos, by simp, by simp⟩
    | 2, hi => simp at hi
    | j + 3, hi =>
      simp only [List.getElem?_cons_succ] at hi
      obtain ⟨h1, h2, h3, h4, h5, h6, h7⟩ := ih j d c m v hi
      refine ⟨h1, h2, h3, h4, Nat.succ_pos _, ?_, ?_⟩
      · obtain ⟨k, rfl⟩ : ∃ k, j = k + 1 := ⟨j - 1, by omega⟩
        simpa using h6
      · simpa using h7

theorem Framed.latch_low {s : LCD74HC595} {t : List Event} (h : Framed s t) :
    ∀ lvl, shiftsWhileLatchLow s._stcp_pin lvl t = true := by
  induction h with
  | nil => intro lvl; rfl
  | delay us _ ih => intro lvl; simpa [shiftsWhileLatchLow] using ih lvl
  | emit w hw _ ih => intro lvl; simpa [shiftsWhileLatchLow] using ih (some HIGH)

theorem Framed.latch_count {s : LCD74HC595} {t : List Event} (h : Framed s t) :
    (t.filter (fun e => e == Event.digitalWrite s._stcp_pin HIGH)).length
      = (t.filter isShift).length := by
  induction h with
  | nil => rfl
  | delay us _ ih => simpa [isShift, List.filter_cons] using ih
  | emit w hw _ ih => simpa [isShift, List.filter_cons] using ih


/-! ## Cursor rows -/

theorem clampedRow_lt (s : LCD74HC595) (row : Nat) (h : s._numlines ≠ 0) :
    clampedRow s row < 4 ∧ clampedRow s row < s._numlines := by
  simp only [clampedRow]
  split <;> split <;> omega

theorem clampedRow_zero_lines (s : LCD74HC595) (row : Nat) (h : s._numlines = 0) :
    clampedRow s row = 255 := by
  simp only [clampedRow, h]
  split <;> simp

theorem get?_isSome_of_lt (t : RowOffsets) (i : Nat) (h : i < 4) : (t.get? i).isSome = true := by
  match i, h with
  | 0, _ => rfl
  | 1, _ => rfl
  | 2, _ => rfl
  | 3, _ => rfl

theorem setCursor_isSome (s : LCD74HC595) (col row : Nat) (h : s._numlines ≠ 0) :
    (setCursor s col row).isSome = true := by
  have h1 := get?_isSome_of_lt s._row_offsets _ (clampedRow_lt s row h).1
  simp only [setCursor]
  split
  · rfl
  · rename_i h2
    rw [h2] at h1
    exact absurd h1 (by simp)

theorem setCursor_none_of_zero_lines (s : LCD74HC595) (col row : Nat) (h : s._numlines = 0) :
    setCursor s col row = none := by
  simp only [setCursor, clampedRow_zero_lines s row h]
  rfl

theorem run_isSome (op : Op) (s : LCD74HC595)
    (h : s._numlines ≠ 0 ∨ ∀ col row, op ≠ Op.setCursor col row) :
    (op.run s).isSome = true := by
  cases op with
  | setCursor col row =>
    rcases h with h | h
    · exact setCursor_isSome s col row h
    · exact absurd rfl (h col row)
  | _ => rfl

/-- C4: `send74595` is latch low, one MSB-first shift of a byte, latch high.
A public method call returns a trace (the one exception is `setCursor` on an
object with zero lines, which reads outside `_row_offsets`), and in that trace
every `shiftOut` is the driver's own 8-bit MSB-first shift, is immediately
preceded by the latch-low write and immediately followed by the latch-high
write; the latch as written by the driver is low at every shift, whatever its
level before the call; and there are as many latch-high writes as shifts. -/
theorem shift_only_while_latch_low (op : Op) (s : LCD74HC595) :
    (∀ rs en data,
        (send74595 s rs en data).2 =
          [Event.digitalWrite s._stcp_pin LOW,
           Event.shiftOut s._ds_pin s._shcp_pin MSBFIRST (shiftByte s rs en data),
           Event.digitalWrite s._stcp_pin HIGH]
        ∧ shiftByte s rs en data < 256)
    ∧ ((s._numlines ≠ 0 ∨ ∀ col row, op ≠ Op.setCursor col row) → (op.run s).isSome = true)
    ∧ ∀ out, op.run s = some out →
        (∀ i d c m v, out.2[i]? = some (Event.shiftOut d c m v) →
          d = s._ds_pin ∧ c = s._shcp_pin ∧ m = MSBFIRST ∧ v < 256 ∧ 0 < i
            ∧ out.2[i - 1]? = some (Event.digitalWrite s._stcp_pin LOW)
            ∧ out.2[i + 1]? = some (Event.digitalWrite s._stcp_pin HIGH))
        ∧ (∀ lvl, shiftsWhileLatchLow s._stcp_pin lvl out.2 = true)
        ∧ (out.2.filter (fun e => e == Event.digitalWrite s._stcp_pin HIGH)).length
            = (out.2.filter isShift).length := by
  refine ⟨fun rs en data => ⟨rfl, shiftByte_lt s rs en data⟩, run_isSome op s, ?_⟩
  intro out h
  have hf := framed_run op s out h
  exact ⟨hf.shift_neighbours, hf.latch_low, hf.latch_count⟩


/-- Witness for C4: `write(0x41)` on `lcd0`; its second event is the shift of
`0x22`, between the latch-low and the latch-high write of pin 8. -/
theorem shift_only_while_latch_low_witness :
    Op.run (Op.write 0x41) lcd0 = some (send lcd0 0x41 1)
    ∧ (send lcd0 0x41 1).2[1]? = some (Event.shiftOut 11 12 MSBFIRST 0x22)
    ∧ (send lcd0 0x41 1).2[1 - 1]? = some (Event.digitalWrite 8 LOW)
    ∧ (send lcd0 0x41 1).2[1 + 1]? = some (Event.digitalWrite 8 HIGH)
    ∧ shiftsWhileLatchLow 8 (some HIGH) (send lcd0 0x41 1).2 = true :=
  have h := (shift_only_while_latch_low (Op.write 0x41) lcd0).2.2 (send lcd0 0x41 1) rfl
  have hi : (send lcd0 0x41 1).2[1]? = some (Event.shiftOut 11 12 MSBFIRST 0x22) := by decide
  ⟨rfl, hi, (h.1 1 11 12 MSBFIRST 0x22 hi).2.2.2.2.2.1, (h.1 1 11 12 MSBFIRST 0x22 hi).2.2.2.2.2.2,
    h.2.1 (some HIGH)⟩

/-- C5: whatever the arguments and the state, the events of `begin` are the
command-mode half-transfers 0x03, 0x03, 0x03, 0x02, with a delay of 4500 µs after
the first, 4500 µs after the second and 150 µs after the third, and only then the
full byte transfers, of which the function-set command is the first. -/
theorem begin_starts_with_handshake (s : LCD74HC595) (cols lines dotsize : Nat) :
    ∃ d1 d2 d3 fs rest, 4500 ≤ d1 ∧ 4500 ≤ d2 ∧ 150 ≤ d3
      ∧ fs = (LCD_FUNCTIONSET ||| (begin s cols lines dotsize).1._displayfunction) % 256
      ∧ (begin s cols lines dotsize).2 =
          (sendHalf s 0x03 0).2 ++ [Event.delayMicroseconds d1]
            ++ (sendHalf s 0x03 0).2 ++ [Event.delayMicroseconds d2]
            ++ (sendHalf s 0x03 0).2 ++ [Event.delayMicroseconds d3]
            ++ (sendHalf s 0x02 0).2
            ++ ((command s fs).2 ++ rest)
      ∧ rest = (command s 0x0C).2 ++ (command s 0x01).2 ++ [Event.delayMicroseconds 2000]
                ++ (command s 0x06).2 := by
  refine ⟨4500, 4500, 150, _, _, le_refl _, le_refl _, le_refl _, rfl, ?_, rfl⟩
  rw [begin_events]
  simp only [command, List.append_assoc]

/-- C6: on a freshly constructed object (any pins and bit positions, any prior
content of the members the constructor leaves unassigned), `begin(16, 2)` then
`write('A')` produce exactly: command nibbles 0x03, 0x03,
0x03, 0x02 (with their delays), command bytes 0x28, 0x0C, 0x01 (then 2000 µs),
0x06, and the data byte 0x41 as data nibble 0x4 then data nibble 0x1; `write`
returns 1. -/
theorem begin_16_2_then_write_A (ds shcp stcp rs en data : Nat) (mem : LCD74HC595) :
    (begin (ctor ds shcp stcp rs en data mem).1 16 2 LCD_5x8DOTS).2
      ++ (write (begin (ctor ds shcp stcp rs en data mem).1 16 2 LCD_5x8DOTS).1
            0x41).2.2
      = (sendHalf (ctor ds shcp stcp rs en data mem).1 0x03 0).2
          ++ [Event.delayMicroseconds 4500]
          ++ (sendHalf (ctor ds shcp stcp rs en data mem).1 0x03 0).2
          ++ [Event.delayMicroseconds 4500]
          ++ (sendHalf (ctor ds shcp stcp rs en data mem).1 0x03 0).2
          ++ [Event.delayMicroseconds 150]
          ++ (sendHalf (ctor ds shcp stcp rs en data mem).1 0x02 0).2
          ++ (command (ctor ds shcp stcp rs en data mem).1 0x28).2
          ++ (command (ctor ds shcp stcp rs en data mem).1 0x0C).2
          ++ (command (ctor ds shcp stcp rs en data mem).1 0x01).2
          ++ [Event.delayMicroseconds 2000]
          ++ (command (ctor ds shcp stcp rs en data mem).1 0x06).2
          ++ ((sendHalf (ctor ds shcp stcp rs en data mem).1 0x4 1).2
              ++ (sendHalf (ctor ds shcp stcp rs en data mem).1 0x1 1).2)
    ∧ (write (begin (ctor ds shcp stcp rs en data mem).1 16 2 LCD_5x8DOTS).1
          0x41).1 = 1
    ∧ ('A').toNat = 0x41 := by
  refine ⟨?_, rfl, by decide⟩
  simp [begin, setRowOffsets, sendHalf, send74595, shiftByte, send, command,
      display, clear, write, ctor, and15_eq_mod, LCD_DISPLAYCONTROL, LCD_DISPLAYON,
      LCD_CLEARDISPLAY, LCD_ENTRYMODESET, LCD_ENTRYLEFT, LCD_FUNCTIONSET, LCD_2LINE,
      LCD_1LINE, LCD_5x8DOTS]


/-! ## State after `begin` -/

theorem begin_state (s : LCD74HC595) (cols lines dotsize : Nat) :
    (begin s cols lines dotsize).1 =
      { s with
        _displayfunction := (begin s cols lines dotsize).1._displayfunction
        _displaycontrol := LCD_DISPLAYON
        _displaymode := LCD_ENTRYLEFT
        _numlines := lines
        _row_offsets := ⟨0x00, 0x40, cols % 256, (0x40 + cols) % 256⟩ } := by
  have e2 : ((cols : Int) % 256).toNat = cols % 256 := by omega
  have e3 : ((64 + (cols : Int)) % 256).toNat = (64 + cols) % 256 := by omega
  by_cases h1 : lines > 1 <;> by_cases h2 : (dotsize ≠ LCD_5x8DOTS ∧ lines = 1) <;>
    simp [begin, h1, h2, setRowOffsets, sendHalf, send74595, send, command,
      display, clear, e2, e3, LCD_DISPLAYON, LCD_ENTRYLEFT]

theorem begin_numlines (s : LCD74HC595) (cols lines dotsize : Nat) :
    (begin s cols lines dotsize).1._numlines = lines := by
  rw [begin_state]

theorem begin_row_offsets (s : LCD74HC595) (cols lines dotsize : Nat) :
    (begin s cols lines dotsize).1._row_offsets
      = ⟨0x00, 0x40, cols % 256, (0x40 + cols) % 256⟩ := by
  rw [begin_state]

theorem clampedRow_of_ge (s : LCD74HC595) (row : Nat) (h1 : 1 ≤ s._numlines)
    (h2 : s._numlines ≤ row) : clampedRow s row = min s._numlines 4 - 1 := by
  simp only [clampedRow]
  split_ifs <;> omega

theorem clampedRow_pred (s : LCD74HC595) (h1 : 1 ≤ s._numlines) :
    clampedRow s (s._numlines - 1) = min s._numlines 4 - 1 := by
  simp only [clampedRow]
  split_ifs <;> omega


theorem setCursor_of_get? (s : LCD74HC595) (col row off : Nat)
    (h : s._row_offsets.get? (clampedRow s row) = some off) :
    setCursor s col row = some (command s ((LCD_SETDDRAMADDR ||| (col + off)) % 256)) := by
  simp only [setCursor, h]

/-- C7: for a row count `R` in {1, 2, 4}, any column count, any `col` and any
`row ≥ R`, after `begin(C, R)` the calls `setCursor(col, row)` and
`setCursor(col, R-1)` both read entry `R-1` of the row-offset table and send the
same command byte `0x80 | (col + that entry)`. -/
theorem setCursor_row_clamped (s : LCD74HC595) (R C dotsize col row : Nat)
    (hR : R = 1 ∨ R = 2 ∨ R = 4) (hrow : R ≤ row) :
    ∃ off, (begin s C R dotsize).1._row_offsets.get? (R - 1) = some off
      ∧ clampedRow (begin s C R dotsize).1 row = R - 1
      ∧ clampedRow (begin s C R dotsize).1 (R - 1) = R - 1
      ∧ setCursor (begin s C R dotsize).1 col row
          = some (command (begin s C R dotsize).1 ((LCD_SETDDRAMADDR ||| (col + off)) % 256))
      ∧ setCursor (begin s C R dotsize).1 col (R - 1)
          = some (command (begin s C R dotsize).1 ((LCD_SETDDRAMADDR ||| (col + off)) % 256)) := by
  have hn := begin_numlines s C R dotsize
  have h1 : 1 ≤ (begin s C R dotsize).1._numlines := by omega
  have hc1 : clampedRow (begin s C R dotsize).1 row = R - 1 := by
    rw [clampedRow_of_ge _ row h1 (by omega), hn]; omega
  have hc2 : clampedRow (begin s C R dotsize).1 (R - 1) = R - 1 := by
    have h := clampedRow_pred (begin s C R dotsize).1 h1
    rw [hn] at h
    rw [h]; omega
  have hlt : R - 1 < 4 := by omega
  have hsome := get?_isSome_of_lt (begin s C R dotsize).1._row_offsets (R - 1) hlt
  obtain ⟨off, hoff⟩ := Option.isSome_iff_exists.mp hsome
  refine ⟨off, hoff, hc1, hc2, ?_, ?_⟩
  · exact setCursor_of_get? _ col row off (by rw [hc1]; exact hoff)
  · exact setCursor_of_get? _ col (R - 1) off (by rw [hc2]; exact hoff)

/-- Witness for C7: after `begin(16, 2)` on `lcd0`, `setCursor(0, 5)` and
`setCursor(0, 1)` both send the command byte `0xC0`. -/
theorem setCursor_row_clamped_witness :
    ∃ off, (begin lcd0 16 2 LCD_5x8DOTS).1._row_offsets.get? (2 - 1) = some off
      ∧ clampedRow (begin lcd0 16 2 LCD_5x8DOTS).1 5 = 2 - 1
      ∧ clampedRow (begin lcd0 16 2 LCD_5x8DOTS).1 (2 - 1) = 2 - 1
      ∧ setCursor (begin lcd0 16 2 LCD_5x8DOTS).1 0 5
          = some (command (begin lcd0 16 2 LCD_5x8DOTS).1 ((LCD_SETDDRAMADDR ||| (0 + off)) % 256))
      ∧ setCursor (begin lcd0 16 2 LCD_5x8DOTS).1 0 (2 - 1)
          = some (command (begin lcd0 16 2 LCD_5x8DOTS).1
              ((LCD_SETDDRAMADDR ||| (0 + off)) % 256)) :=
  setCursor_row_clamped lcd0 2 16 LCD_5x8DOTS 0 5 (by decide) (by decide)

/-- C8, the failing input: after `begin(16, 0)` on `lcd0`, `setCursor(0, 0)`
computes the row index 255 (`_numlines - 1` wrapped to 8 bits) and reads
`_row_offsets[255]`, outside the four entries of the array. -/
theorem setCursor_zero_lines_reads_outside :
    (begin lcd0 16 0 LCD_5x8DOTS).1._numlines = 0
    ∧ clampedRow (begin lcd0 16 0 LCD_5x8DOTS).1 0 = 255
    ∧ (begin lcd0 16 0 LCD_5x8DOTS).1._row_offsets.get? 255 = none
    ∧ setCursor (begin lcd0 16 0 LCD_5x8DOTS).1 0 0 = none := by
  refine ⟨by decide, by decide, rfl, by decide⟩


/-! ## Flag arithmetic -/

theorem testBit_andNot_two_pow (x k i : Nat) :
    (andNot x (2 ^ k)).testBit i = (x.testBit i && (decide (i < 8) ^^ decide (k = i))) := by
  have h255 : (0xFF : Nat) = 2 ^ 8 - 1 := by norm_num
  simp only [andNot, h255, Nat.testBit_and, Nat.testBit_xor, Nat.testBit_two_pow_sub_one,
    Nat.testBit_two_pow]

theorem andNot_or_two_pow (x k : Nat) (hk : k < 8) :
    andNot ((x ||| 2 ^ k) % 256) (2 ^ k) = andNot x (2 ^ k) := by
  apply Nat.eq_of_testBit_eq
  intro i
  simp only [testBit_andNot_two_pow, testBit_mod256, Nat.testBit_or, Nat.testBit_two_pow]
  by_cases hi : i < 8
  · cases x.testBit i <;> cases decide (k = i) <;> simp [hi]
  · have hki : ¬ k = i := by omega
    simp [hi, hki]

theorem andNot_of_clear (x k : Nat) (hx : x < 256) (hk : x &&& 2 ^ k = 0) :
    andNot x (2 ^ k) = x := by
  apply Nat.eq_of_testBit_eq
  intro i
  rw [testBit_andNot_two_pow]
  by_cases hi : i < 8
  · have h := congrArg (fun n => Nat.testBit n i) hk
    simp only [Nat.testBit_and, Nat.testBit_two_pow, Nat.zero_testBit] at h
    cases hxi : x.testBit i <;> simp_all
  · have hlt : x < 2 ^ i := lt_of_lt_of_le hx
      (by
        have : (256 : Nat) = 2 ^ 8 := by norm_num
        rw [this]
        exact Nat.pow_le_pow_right (by norm_num) (by omega))
    simp [Nat.testBit_lt_two_pow hlt]


/-- C9, counterexample: right after `begin(16, 2)` on `lcd0` the control mask is
0x04 (display on); `display()` then `noDisplay()` leave it 0x00, not 0x04. -/
theorem display_then_noDisplay_loses_flag :
    (begin lcd0 16 2 LCD_5x8DOTS).1._displaycontrol = 0x04
    ∧ (noDisplay (display (begin lcd0 16 2 LCD_5x8DOTS).1).1).1._displaycontrol = 0x00
    ∧ (noDisplay (display (begin lcd0 16 2 LCD_5x8DOTS).1).1).1._displaycontrol
        ≠ (begin lcd0 16 2 LCD_5x8DOTS).1._displaycontrol := by
  decide

/-- C9, amended: for every state, the on operation followed by the matching off
operation leaves the control mask equal to its value before the pair with that
flag's bit cleared; when the mask is an 8-bit value in which the flag was off
before the pair, this is the value before the pair. -/
theorem on_then_off_clears_flag (s : LCD74HC595) :
    (noDisplay (display s).1).1._displaycontrol = andNot s._displaycontrol LCD_DISPLAYON
    ∧ (noCursor (cursor s).1).1._displaycontrol = andNot s._displaycontrol LCD_CURSORON
    ∧ (noBlink (blink s).1).1._displaycontrol = andNot s._displaycontrol LCD_BLINKON
    ∧ (s._displaycontrol < 256 →
        (s._displaycontrol &&& LCD_DISPLAYON = 0 →
          (noDisplay (display s).1).1._displaycontrol = s._displaycontrol)
        ∧ (s._displaycontrol &&& LCD_CURSORON = 0 →
          (noCursor (cursor s).1).1._displaycontrol = s._displaycontrol)
        ∧ (s._displaycontrol &&& LCD_BLINKON = 0 →
          (noBlink (blink s).1).1._displaycontrol = s._displaycontrol)) := by
  have hd : (noDisplay (display s).1).1._displaycontrol = andNot s._displaycontrol LCD_DISPLAYON :=
    andNot_or_two_pow s._displaycontrol 2 (by decide)
  have hc : (noCursor (cursor s).1).1._displaycontrol = andNot s._displaycontrol LCD_CURSORON :=
    andNot_or_two_pow s._displaycontrol 1 (by decide)
  have hb : (noBlink (blink s).1).1._displaycontrol = andNot s._displaycontrol LCD_BLINKON :=
    andNot_or_two_pow s._displaycontrol 0 (by decide)
  refine ⟨hd, hc, hb, fun h8 => ⟨fun h => ?_, fun h => ?_, fun h => ?_⟩⟩
  · rw [hd]; exact andNot_of_clear s._displaycontrol 2 h8 h
  · rw [hc]; exact andNot_of_clear s._displaycontrol 1 h8 h
  · rw [hb]; exact andNot_of_clear s._displaycontrol 0 h8 h

/-- Witness for C9 (amended): after `begin(16, 2)` on `lcd0` the blink flag is
off, and `blink()` then `noBlink()` restore the control mask 0x04. -/
theorem on_then_off_clears_flag_witness :
    (begin lcd0 16 2 LCD_5x8DOTS).1._displaycontrol < 256
    ∧ (begin lcd0 16 2 LCD_5x8DOTS).1._displaycontrol &&& LCD_BLINKON = 0
    ∧ (noBlink (blink (begin lcd0 16 2 LCD_5x8DOTS).1).1).1._displaycontrol
        = (begin lcd0 16 2 LCD_5x8DOTS).1._displaycontrol :=
  ⟨by decide, by decide,
    ((on_then_off_clears_flag (begin lcd0 16 2 LCD_5x8DOTS).1).2.2.2 (by decide)).2.2
      (by decide)⟩

/-! ## Custom glyphs -/

theorem cgram_address_lt (slot : Nat) :
    (LCD_SETCGRAMADDR ||| ((slot &&& 0x7) <<< 3)) % 256
      = LCD_SETCGRAMADDR ||| ((slot &&& 0x7) <<< 3) := by
  have h7 : (7 : Nat) = 2 ^ 3 - 1 := by norm_num
  have hlt : slot &&& 0x7 < 8 := by
    rw [h7, Nat.and_pow_two_sub_one_eq_mod]
    exact Nat.mod_lt _ (by norm_num)
  generalize slot &&& 0x7 = k at hlt
  interval_cases k <;> decide

theorem and7_and7 (slot : Nat) : (slot &&& 0x7) &&& 0x7 = slot &&& 0x7 := by
  rw [Nat.and_assoc, Nat.and_self]

theorem createChar_events (s : LCD74HC595) (location : Nat) (charmap : Nat → Nat) :
    createChar s location charmap =
      (s, (command s (LCD_SETCGRAMADDR ||| ((location &&& 0x7) <<< 3))).2
          ++ (send s (charmap 0) 1).2 ++ (send s (charmap 1) 1).2
          ++ (send s (charmap 2) 1).2 ++ (send s (charmap 3) 1).2
          ++ (send s (charmap 4) 1).2 ++ (send s (charmap 5) 1).2
          ++ (send s (charmap 6) 1).2 ++ (send s (charmap 7) 1).2) := by
  have hr : List.range 8 = [0, 1, 2, 3, 4, 5, 6, 7] := by decide
  simp only [createChar, hr, List.foldl, createCharBody, write, command, send_state,
    cgram_address_lt]

/-- C10: `createChar(slot, pattern)` sends the command byte
`0x40 | ((slot & 0x7) << 3)` and then the eight bytes `pattern[0..7]`, in index
order, as data-mode transfers, and leaves the object unchanged; so
`createChar(slot, p)` and `createChar(slot & 0x7, p)` do the same, and slots 0 and
8 both program the address 0x40. -/
theorem createChar_masks_slot (s : LCD74HC595) (slot : Nat) (pattern : Nat → Nat) :
    (createChar s slot pattern).2 =
        (command s (0x40 ||| ((slot &&& 0x7) <<< 3))).2
          ++ (send s (pattern 0) 1).2 ++ (send s (pattern 1) 1).2
          ++ (send s (pattern 2) 1).2 ++ (send s (pattern 3) 1).2
          ++ (send s (pattern 4) 1).2 ++ (send s (pattern 5) 1).2
          ++ (send s (pattern 6) 1).2 ++ (send s (pattern 7) 1).2
    ∧ (createChar s slot pattern).1 = s
    ∧ createChar s slot pattern = createChar s (slot &&& 0x7) pattern
    ∧ createChar s 0 pattern = createChar s 8 pattern
    ∧ (0x40 ||| (((0 : Nat) &&& 0x7) <<< 3) = 0x40)
    ∧ (0x40 ||| (((8 : Nat) &&& 0x7) <<< 3) = 0x40) := by
  refine ⟨?_, ?_, ?_, ?_, by decide, by decide⟩
  · rw [createChar_events]
  · rw [createChar_events]
  · rw [createChar_events, createChar_events, and7_and7]
  · rw [createChar_events, createChar_events]
    rfl

/-! ## Text output, clear and home -/

theorem or_lt_256 {a b : Nat} (ha : a < 256) (hb : b < 256) : a ||| b < 256 := by
  have h : (256 : Nat) = 2 ^ 8 := by norm_num
  rw [h] at ha hb ⊢
  exact Nat.or_lt_two_pow ha hb

theorem shiftByte_data_mode (s : LCD74HC595) (en d : Nat) :
    shiftByte s 1 en d = (shiftByte s 0 en d ||| s._rs_mask) % 256 := by
  by_cases hen : en = 0
  · simp [shiftByte, hen]
  · simp only [shiftByte, hen, ne_eq, not_false_eq_true, if_true, one_ne_zero, not_true_eq_false,
      if_false]
    rw [mod256_or, mod256_or, Nat.lor_assoc, Nat.lor_assoc, Nat.lor_comm s._rs_mask]

/-- C13: `write(value)` returns 1, leaves every member of the object unchanged
and performs exactly one full byte transfer of `value` in data mode: the two
half-transfers `sendHalf(value>>4, 1)` and `sendHalf(value&0xF, 1)`, whose six
bytes are built with register-select 1, each the command-mode byte with the
register-select mask OR-ed in. -/
theorem write_one_data_byte (s : LCD74HC595) (value : Nat) :
    (write s value).1 = 1
    ∧ (write s value).2.1 = s
    ∧ (write s value).2.2 = (send s value 1).2
    ∧ (write s value).2.2
        = (sendHalf s (value >>> 4) 1).2 ++ (sendHalf s (value &&& 0xF) 1).2
    ∧ latchedBytes (write s value).2.2
        = [shiftByte s 1 0 (value >>> 4), shiftByte s 1 1 (value >>> 4),
           shiftByte s 1 0 (value >>> 4),
           shiftByte s 1 0 (value &&& 0xF), shiftByte s 1 1 (value &&& 0xF),
           shiftByte s 1 0 (value &&& 0xF)]
    ∧ ∀ en d, shiftByte s 1 en d = (shiftByte s 0 en d ||| s._rs_mask) % 256 := by
  have h : (write s value).2.2
      = (sendHalf s (value >>> 4) 1).2 ++ (sendHalf s (value &&& 0xF) 1).2 := by
    simp only [write, send, sendHalf_state, sendHalf_mod256, sendHalf_and15]
  refine ⟨rfl, rfl, rfl, h, ?_, shiftByte_data_mode s⟩
  rw [h]
  rfl

/-- C14: `clear()` sends exactly the command byte 0x01 and `home()` exactly the
command byte 0x02; each then waits 2000 µs more, after the settle delays of the
transfer, and returns the object unchanged. -/
theorem clear_home_long_delay (s : LCD74HC595) :
    (∃ d, 2000 ≤ d ∧ clear s = (s, (command s 0x01).2 ++ [Event.delayMicroseconds d]))
    ∧ (∃ d, 2000 ≤ d ∧ home s = (s, (command s 0x02).2 ++ [Event.delayMicroseconds d]))
    ∧ (clear s).2.getLast? = some (Event.delayMicroseconds 2000)
    ∧ (home s).2.getLast? = some (Event.delayMicroseconds 2000)
    ∧ (clear s).1 = s ∧ (home s).1 = s := by
  refine ⟨⟨2000, le_refl _, rfl⟩, ⟨2000, le_refl _, rfl⟩, ?_, ?_, rfl, rfl⟩
  · simp [clear]
  · simp [home]


/-! ## Function flags and row offsets -/

theorem begin_displayfunction (s : LCD74HC595) (cols lines dotsize : Nat) :
    (begin s cols lines dotsize).1._displayfunction =
      if lines > 1 then (s._displayfunction ||| LCD_2LINE) % 256
      else if dotsize ≠ LCD_5x8DOTS ∧ lines = 1 then (s._displayfunction ||| LCD_5x10DOTS) % 256
      else s._displayfunction := by
  by_cases h1 : lines > 1
  · have h2 : ¬ (dotsize ≠ LCD_5x8DOTS ∧ lines = 1) := by omega
    simp [begin, h1, h2, setRowOffsets, sendHalf, send74595, send, command, display, clear]
  · by_cases h2 : (dotsize ≠ LCD_5x8DOTS ∧ lines = 1) <;>
      simp [begin, h1, h2, setRowOffsets, sendHalf, send74595, send, command, display, clear]

theorem ctor_displayfunction (ds shcp stcp rs en data : Nat) (mem : LCD74HC595) :
    (ctor ds shcp stcp rs en data mem).1._displayfunction = 0 := rfl

/-- C16: on a freshly constructed object, `begin(cols, lines, dotsize)` sends,
right after the four handshake nibbles, the function-set command byte
`0x20 | (lines > 1 ? 0x08 : 0) | (dotsize != 0 && lines == 1 ? 0x04 : 0)`; bit
0x10 (8-bit interface) is never set in it, and bit 0x04 (5x10 font) is set only
when `lines == 1`. -/
theorem begin_function_set_fresh (ds shcp stcp rs en data : Nat) (mem : LCD74HC595)
    (cols lines dotsize : Nat) :
    ∃ fs rest,
      fs = 0x20 ||| (if lines > 1 then 0x08 else 0)
              ||| (if dotsize ≠ 0 ∧ lines = 1 then 0x04 else 0)
      ∧ (begin (ctor ds shcp stcp rs en data mem).1 cols lines dotsize).2 =
          (sendHalf (ctor ds shcp stcp rs en data mem).1 0x03 0).2
            ++ [Event.delayMicroseconds 4500]
            ++ (sendHalf (ctor ds shcp stcp rs en data mem).1 0x03 0).2
            ++ [Event.delayMicroseconds 4500]
            ++ (sendHalf (ctor ds shcp stcp rs en data mem).1 0x03 0).2
            ++ [Event.delayMicroseconds 150]
            ++ (sendHalf (ctor ds shcp stcp rs en data mem).1 0x02 0).2
            ++ ((command (ctor ds shcp stcp rs en data mem).1 fs).2 ++ rest)
      ∧ (begin (ctor ds shcp stcp rs en data mem).1 cols lines dotsize).1._displayfunction
          = (if lines > 1 then 0x08 else 0) ||| (if dotsize ≠ 0 ∧ lines = 1 then 0x04 else 0)
      ∧ fs &&& 0x10 = 0
      ∧ (fs &&& 0x04 ≠ 0 → lines = 1)
      ∧ (fs = 0x20 ∨ fs = 0x24 ∨ fs = 0x28) := by
  have hdf := begin_displayfunction (ctor ds shcp stcp rs en data mem).1 cols lines dotsize
  rw [ctor_displayfunction] at hdf
  have hev := begin_events (ctor ds shcp stcp rs en data mem).1 cols lines dotsize
  rw [hev, hdf]
  refine ⟨_, (command (ctor ds shcp stcp rs en data mem).1 0x0C).2
        ++ (command (ctor ds shcp stcp rs en data mem).1 0x01).2
        ++ [Event.delayMicroseconds 2000]
        ++ (command (ctor ds shcp stcp rs en data mem).1 0x06).2, rfl, ?_⟩
  by_cases h1 : lines > 1
  · have h2 : ¬ (dotsize ≠ 0 ∧ lines = 1) := by omega
    simp +decide [h1, h2, command, LCD_FUNCTIONSET, LCD_2LINE, LCD_5x10DOTS, LCD_5x8DOTS]
  · by_cases h2 : (dotsize ≠ 0 ∧ lines = 1)
    · simp +decide [h1, h2, command, LCD_FUNCTIONSET, LCD_2LINE, LCD_5x10DOTS, LCD_5x8DOTS]
    · simp +decide [h1, h2, command, LCD_FUNCTIONSET, LCD_2LINE, LCD_5x10DOTS, LCD_5x8DOTS]


/-- Witness for C16: `begin(16, 1, 1)` on `lcd0` sends the function-set byte
0x24, whose 5x10 bit is set, on a one-line display. -/
theorem begin_function_set_fresh_witness :
    ∃ fs, fs = 0x24 ∧ fs &&& 0x04 ≠ 0 ∧ fs &&& 0x10 = 0 ∧ (1 : Nat) = 1 :=
  let ⟨fs, _, h1, _, _, h4, h5, _⟩ :=
    begin_function_set_fresh 11 12 8 PIN_RS PIN_EN PIN_DATA zeroed 16 1 1
  have h : fs = 0x24 := by rw [h1]; decide
  ⟨fs, h, by rw [h]; decide, h4, h5 (by rw [h]; decide)⟩

theorem ddram_command_byte (col off : Nat) :
    (LCD_SETDDRAMADDR ||| (col + off)) % 256 = LCD_SETDDRAMADDR ||| ((col + off) % 256) := by
  rw [← or_mod256]
  exact Nat.mod_eq_of_lt (or_lt_256 (by decide) (Nat.mod_lt _ (by decide)))

theorem clampedRow_of_lt (s : LCD74HC595) (row : Nat) (h : row < min s._numlines 4) :
    clampedRow s row = row := by
  simp only [clampedRow]
  split_ifs <;> omega

theorem get?_of_lt (t : RowOffsets) (row : Nat) (h : row < 4) :
    t.get? row = some ([t.e0, t.e1, t.e2, t.e3].getD row 0) := by
  match row, h with
  | 0, _ => rfl
  | 1, _ => rfl
  | 2, _ => rfl
  | 3, _ => rfl

theorem setCursor_of_lt (s : LCD74HC595) (col row : Nat) (h : row < min s._numlines 4) :
    setCursor s col row
      = some (command s (0x80 |||
          ((col + [s._row_offsets.e0, s._row_offsets.e1, s._row_offsets.e2,
                    s._row_offsets.e3].getD row 0) % 256))) := by
  have h4 : row < 4 := by omega
  rw [setCursor_of_get? s col row _ (by rw [clampedRow_of_lt s row h]; exact get?_of_lt _ row h4),
    ddram_command_byte]

/-- C17: after `begin(cols, lines)` the row-offset table is
`[0x00, 0x40, cols mod 256, (0x40 + cols) mod 256]`; after
`setRowOffsets(r0, r1, r2, r3)` it holds each argument reduced mod 256 and nothing
else changed; and in both states, for every `col` and every `row < min(lines, 4)`,
`setCursor(col, row)` sends exactly one command byte, equal to
`0x80 | ((col + table[row]) mod 256)`, and leaves the object unchanged. -/
theorem setCursor_uses_row_offsets (s : LCD74HC595) (cols lines dotsize col row : Nat)
    (r0 r1 r2 r3 : Int) (hrow : row < min lines 4) :
    (begin s cols lines dotsize).1._row_offsets
        = ⟨0x00, 0x40, cols % 256, (0x40 + cols) % 256⟩
    ∧ setCursor (begin s cols lines dotsize).1 col row
        = some (command (begin s cols lines dotsize).1
            (0x80 ||| ((col + [0x00, 0x40, cols % 256, (0x40 + cols) % 256].getD row 0) % 256)))
    ∧ setRowOffsets (begin s cols lines dotsize).1 r0 r1 r2 r3
        = ({ (begin s cols lines dotsize).1 with
              _row_offsets := ⟨(r0 % 256).toNat, (r1 % 256).toNat, (r2 % 256).toNat,
                (r3 % 256).toNat⟩ }, [])
    ∧ setCursor (setRowOffsets (begin s cols lines dotsize).1 r0 r1 r2 r3).1 col row
        = some (command (setRowOffsets (begin s cols lines dotsize).1 r0 r1 r2 r3).1
            (0x80 ||| ((col + [(r0 % 256).toNat, (r1 % 256).toNat, (r2 % 256).toNat,
                (r3 % 256).toNat].getD row 0) % 256))) := by
  have hn := begin_numlines s cols lines dotsize
  have ht := begin_row_offsets s cols lines dotsize
  refine ⟨ht, ?_, rfl, ?_⟩
  · rw [setCursor_of_lt _ col row (by rw [hn]; exact hrow), ht]
  · rw [setCursor_of_lt _ col row (by
      show row < min (begin s cols lines dotsize).1._numlines 4
      rw [hn]; exact hrow)]
    rfl

/-- Witness for C17: on `lcd0`, `begin(16, 2)` then `setCursor(3, 1)` sends the
command byte `0x80 | (3 + 0x40) = 0xC3`. -/
theorem setCursor_uses_row_offsets_witness :
    (1 : Nat) < min 2 4
    ∧ setCursor (begin lcd0 16 2 LCD_5x8DOTS).1 3 1
        = some (command (begin lcd0 16 2 LCD_5x8DOTS).1 0xC3) :=
  ⟨by decide,
    (setCursor_uses_row_offsets lcd0 16 2 LCD_5x8DOTS 3 1 0 0 0 0 (by decide)).2.1⟩


/-! ## Flag operations -/

theorem testBit_or_two_pow_mod256 (x k i : Nat) (hi : i < 8) (hne : i ≠ k) :
    ((x ||| 2 ^ k) % 256).testBit i = x.testBit i := by
  have h : ¬ k = i := fun h => hne h.symm
  simp [testBit_mod256, Nat.testBit_or, Nat.testBit_two_pow, hi, h]

theorem testBit_andNot_other (x k i : Nat) (hi : i < 8) (hne : i ≠ k) :
    (andNot x (2 ^ k)).testBit i = x.testBit i := by
  have h : ¬ k = i := fun h => hne h.symm
  simp [testBit_andNot_two_pow, hi, h]

theorem andNot_le (x m : Nat) : andNot x m ≤ x := Nat.and_le_left

theorem andNot_lt_256 (x m : Nat) (hm : m < 256) : andNot x m < 256 := by
  have h : (0xFF ^^^ m) < 256 := by
    have h256 : (256 : Nat) = 2 ^ 8 := by norm_num
    rw [h256] at hm ⊢
    exact Nat.xor_lt_two_pow (by norm_num) hm
  exact lt_of_le_of_lt Nat.and_le_right h

theorem or_mod256_of_lt {a b : Nat} (ha : a < 256) (hb : b < 256) :
    (a ||| b) % 256 = a ||| b := Nat.mod_eq_of_lt (or_lt_256 ha hb)

theorem or_flag_lt (x k n : Nat) (hx : x < 2 ^ n) (hk : k < n) :
    (x ||| 2 ^ k) % 256 < 2 ^ n := by
  have h1 : x ||| 2 ^ k < 2 ^ n :=
    Nat.or_lt_two_pow hx (Nat.pow_lt_pow_right (by norm_num) hk)
  exact lt_of_le_of_lt (Nat.mod_le _ _) h1

theorem flag_run_wiring (c : FlagOp) (s : LCD74HC595) : wiring (c.run s).1 = wiring s := by
  cases c <;> rfl

theorem flag_run_frame (c : FlagOp) (s : LCD74HC595) :
    (c.run s).1 = { s with _displaycontrol := (c.run s).1._displaycontrol
                           _displaymode := (c.run s).1._displaymode } := by
  cases c <;> rfl

theorem flag_run_control_of_ne (c : FlagOp) (s : LCD74HC595) (h : c.group ≠ FlagGroup.control) :
    (c.run s).1._displaycontrol = s._displaycontrol := by
  cases c <;> first | rfl | exact absurd rfl h

theorem flag_run_mode_of_ne (c : FlagOp) (s : LCD74HC595) (h : c.group ≠ FlagGroup.entryMode) :
    (c.run s).1._displaymode = s._displaymode := by
  cases c <;> first | rfl | exact absurd rfl h

theorem flag_run_control_lt (c : FlagOp) (s : LCD74HC595) (h : c.group = FlagGroup.control) :
    (c.run s).1._displaycontrol < 256 := by
  cases c <;> first
    | exact absurd h (by decide)
    | exact andNot_lt_256 _ _ (by decide)
    | exact Nat.mod_lt _ (by decide)

theorem flag_run_mode_lt (c : FlagOp) (s : LCD74HC595) (h : c.group = FlagGroup.entryMode) :
    (c.run s).1._displaymode < 256 := by
  cases c <;> first
    | exact absurd h (by decide)
    | exact andNot_lt_256 _ _ (by decide)
    | exact Nat.mod_lt _ (by decide)

theorem flag_run_control (c : FlagOp) (s : LCD74HC595) (h : c.group = FlagGroup.control) :
    c.run s = command (c.run s).1 (LCD_DISPLAYCONTROL ||| (c.run s).1._displaycontrol) := by
  have hlt := flag_run_control_lt c s h
  have hmod := or_mod256_of_lt (show LCD_DISPLAYCONTROL < 256 by decide) hlt
  cases c <;> first
    | exact absurd h (by decide)
    | (rw [← hmod]; rfl)

theorem flag_run_mode (c : FlagOp) (s : LCD74HC595) (h : c.group = FlagGroup.entryMode) :
    c.run s = command (c.run s).1 (LCD_ENTRYMODESET ||| (c.run s).1._displaymode) := by
  have hlt := flag_run_mode_lt c s h
  have hmod := or_mod256_of_lt (show LCD_ENTRYMODESET < 256 by decide) hlt
  cases c <;> first
    | exact absurd h (by decide)
    | (rw [← hmod]; rfl)

theorem flag_run_own_bit_control (c : FlagOp) (s : LCD74HC595) (h : c.group = FlagGroup.control)
    (i : Nat) (hi : i < 8) (hne : i ≠ c.ownBit) :
    (c.run s).1._displaycontrol.testBit i = s._displaycontrol.testBit i := by
  cases c <;> first
    | exact absurd h (by decide)
    | exact testBit_andNot_other s._displaycontrol _ i hi hne
    | exact testBit_or_two_pow_mod256 s._displaycontrol _ i hi hne

theorem flag_run_own_bit_mode (c : FlagOp) (s : LCD74HC595) (h : c.group = FlagGroup.entryMode)
    (i : Nat) (hi : i < 8) (hne : i ≠ c.ownBit) :
    (c.run s).1._displaymode.testBit i = s._displaymode.testBit i := by
  cases c <;> first
    | exact absurd h (by decide)
    | exact testBit_andNot_other s._displaymode _ i hi hne
    | exact testBit_or_two_pow_mod256 s._displaymode _ i hi hne


theorem send_eq_of_wiring {s f : LCD74HC595} (h : wiring s = wiring f) (v mode : Nat) :
    (send s v mode).2 = (send f v mode).2 := by
  simp only [wiring, Prod.mk.injEq] at h
  obtain ⟨h1, h2, h3, h4, h5, h6⟩ := h
  simp only [send, sendHalf, send74595, shiftByte, h1, h2, h3, h4, h5, h6]

theorem sendHalf_eq_of_wiring {s f : LCD74HC595} (h : wiring s = wiring f) (v mode : Nat) :
    (sendHalf s v mode).2 = (sendHalf f v mode).2 := by
  simp only [wiring, Prod.mk.injEq] at h
  obtain ⟨h1, h2, h3, h4, h5, h6⟩ := h
  simp only [sendHalf, send74595, shiftByte, h1, h2, h3, h4, h5, h6]

theorem command_eq_of_wiring {s f : LCD74HC595} (h : wiring s = wiring f) (v : Nat) :
    (command s v).2 = (command f v).2 :=
  send_eq_of_wiring h v 0

theorem begin_wiring (s : LCD74HC595) (cols lines dotsize : Nat) :
    wiring (begin s cols lines dotsize).1 = wiring s := by
  rw [begin_state]
  rfl

theorem runFlagOps_wiring (ops : List FlagOp) (s : LCD74HC595) :
    wiring (runFlagOps ops s).1 = wiring s := by
  induction ops generalizing s with
  | nil => rfl
  | cons c rest ih =>
    simp only [runFlagOps]
    rw [ih, flag_run_wiring]

/-- C18: a display-control operation leaves every member but the control mask
unchanged and, in the mask, every bit except its own (display 0x04, cursor 0x02,
blink 0x01); an entry-mode operation leaves every member but the entry-mode mask
unchanged and, in the mask, every bit except its own (text direction 0x02,
autoscroll 0x01); `scrollDisplayLeft` and `scrollDisplayRight` send the command
bytes 0x18 and 0x1C and leave the object unchanged. -/
theorem flag_op_changes_only_own_bit (c : FlagOp) (s : LCD74HC595) :
    (c.group = FlagGroup.control →
        (c.run s).1 = { s with _displaycontrol := (c.run s).1._displaycontrol }
        ∧ ∀ i, i < 8 → i ≠ c.ownBit →
            (c.run s).1._displaycontrol.testBit i = s._displaycontrol.testBit i)
    ∧ (c.group = FlagGroup.entryMode →
        (c.run s).1 = { s with _displaymode := (c.run s).1._displaymode }
        ∧ ∀ i, i < 8 → i ≠ c.ownBit →
            (c.run s).1._displaymode.testBit i = s._displaymode.testBit i)
    ∧ (2 ^ FlagOp.display.ownBit = LCD_DISPLAYON ∧ 2 ^ FlagOp.noDisplay.ownBit = LCD_DISPLAYON
        ∧ 2 ^ FlagOp.cursor.ownBit = LCD_CURSORON ∧ 2 ^ FlagOp.noCursor.ownBit = LCD_CURSORON
        ∧ 2 ^ FlagOp.blink.ownBit = LCD_BLINKON ∧ 2 ^ FlagOp.noBlink.ownBit = LCD_BLINKON
        ∧ 2 ^ FlagOp.leftToRight.ownBit = LCD_ENTRYLEFT
        ∧ 2 ^ FlagOp.rightToLeft.ownBit = LCD_ENTRYLEFT
        ∧ 2 ^ FlagOp.autoscroll.ownBit = LCD_ENTRYSHIFTINCREMENT
        ∧ 2 ^ FlagOp.noAutoscroll.ownBit = LCD_ENTRYSHIFTINCREMENT)
    ∧ scrollDisplayLeft s = command s 0x18
    ∧ scrollDisplayRight s = command s 0x1C
    ∧ (scrollDisplayLeft s).1 = s
    ∧ (scrollDisplayRight s).1 = s := by
  refine ⟨fun h => ⟨?_, fun i hi hne => flag_run_own_bit_control c s h i hi hne⟩,
    fun h => ⟨?_, fun i hi hne => flag_run_own_bit_mode c s h i hi hne⟩,
    by decide, rfl, rfl, rfl, rfl⟩
  · cases c <;> first | exact absurd h (by decide) | rfl
  · cases c <;> first | exact absurd h (by decide) | rfl

/-- Witness for C18: `cursor()` on the state after `begin(16, 2)` on `lcd0`
keeps bit 2 (display on) of the control mask and the entry-mode mask. -/
theorem flag_op_changes_only_own_bit_witness :
    FlagOp.cursor.group = FlagGroup.control
    ∧ (2 : Nat) < 8 ∧ 2 ≠ FlagOp.cursor.ownBit
    ∧ (FlagOp.cursor.run (begin lcd0 16 2 LCD_5x8DOTS).1).1._displaycontrol.testBit 2
        = (begin lcd0 16 2 LCD_5x8DOTS).1._displaycontrol.testBit 2
    ∧ (FlagOp.cursor.run (begin lcd0 16 2 LCD_5x8DOTS).1).1._displaycontrol = 0x06 :=
  ⟨rfl, by decide, by decide,
    ((flag_op_changes_only_own_bit FlagOp.cursor (begin lcd0 16 2 LCD_5x8DOTS).1).1 rfl).2 2
      (by decide) (by decide),
    by decide⟩


theorem lastOfGroup_control (ops : List FlagOp) (s : LCD74HC595) :
    (∀ t, lastOfGroup FlagGroup.control ops s = some t →
        t = (command s (LCD_DISPLAYCONTROL ||| (runFlagOps ops s).1._displaycontrol)).2)
    ∧ (lastOfGroup FlagGroup.control ops s = none →
        (runFlagOps ops s).1._displaycontrol = s._displaycontrol) := by
  induction ops generalizing s with
  | nil => exact ⟨fun t h => by simp [lastOfGroup] at h, fun _ => rfl⟩
  | cons c rest ih =>
    obtain ⟨ih1, ih2⟩ := ih (c.run s).1
    have hw := flag_run_wiring c s
    simp only [lastOfGroup, runFlagOps]
    cases hl : lastOfGroup FlagGroup.control rest (c.run s).1 with
    | some t' =>
      refine ⟨fun t h => ?_, fun h => by simp at h⟩
      simp only [Option.some.injEq] at h
      rw [← h, ih1 t' hl]
      exact command_eq_of_wiring hw _
    | none =>
      by_cases hg : c.group = FlagGroup.control
      · refine ⟨fun t h => ?_, fun h => by simp [hg] at h⟩
        simp only [hg, if_true, Option.some.injEq] at h
        rw [← h, ih2 hl]
        have hc := flag_run_control c s hg
        rw [congrArg Prod.snd hc]
        exact command_eq_of_wiring hw _
      · refine ⟨fun t h => by simp [hg] at h, fun _ => ?_⟩
        rw [ih2 hl]
        exact flag_run_control_of_ne c s hg

theorem lastOfGroup_mode (ops : List FlagOp) (s : LCD74HC595) :
    (∀ t, lastOfGroup FlagGroup.entryMode ops s = some t →
        t = (command s (LCD_ENTRYMODESET ||| (runFlagOps ops s).1._displaymode)).2)
    ∧ (lastOfGroup FlagGroup.entryMode ops s = none →
        (runFlagOps ops s).1._displaymode = s._displaymode) := by
  induction ops generalizing s with
  | nil => exact ⟨fun t h => by simp [lastOfGroup] at h, fun _ => rfl⟩
  | cons c rest ih =>
    obtain ⟨ih1, ih2⟩ := ih (c.run s).1
    have hw := flag_run_wiring c s
    simp only [lastOfGroup, runFlagOps]
    cases hl : lastOfGroup FlagGroup.entryMode rest (c.run s).1 with
    | some t' =>
      refine ⟨fun t h => ?_, fun h => by simp at h⟩
      simp only [Option.some.injEq] at h
      rw [← h, ih1 t' hl]
      exact command_eq_of_wiring hw _
    | none =>
      by_cases hg : c.group = FlagGroup.entryMode
      · refine ⟨fun t h => ?_, fun h => by simp [hg] at h⟩
        simp only [hg, if_true, Option.some.injEq] at h
        rw [← h, ih2 hl]
        have hc := flag_run_mode c s hg
        rw [congrArg Prod.snd hc]
        exact command_eq_of_wiring hw _
      · refine ⟨fun t h => by simp [hg] at h, fun _ => ?_⟩
        rw [ih2 hl]
        exact flag_run_mode_of_ne c s hg

theorem begin_tail_events (s : LCD74HC595) (cols lines dotsize : Nat) :
    ∃ front, (begin s cols lines dotsize).2 =
      front ++ (command (begin s cols lines dotsize).1 0x0C).2
        ++ (command (begin s cols lines dotsize).1 0x01).2 ++ [Event.delayMicroseconds 2000]
        ++ (command (begin s cols lines dotsize).1 0x06).2 := by
  have hw := begin_wiring s cols lines dotsize
  refine ⟨(sendHalf s 0x03 0).2 ++ [Event.delayMicroseconds 4500]
        ++ (sendHalf s 0x03 0).2 ++ [Event.delayMicroseconds 4500]
        ++ (sendHalf s 0x03 0).2 ++ [Event.delayMicroseconds 150]
        ++ (sendHalf s 0x02 0).2
        ++ (send s ((LCD_FUNCTIONSET ||| (begin s cols lines dotsize).1._displayfunction) % 256)
              0).2, ?_⟩
  rw [command_eq_of_wiring hw, command_eq_of_wiring hw, command_eq_of_wiring hw]
  exact begin_events s cols lines dotsize


/-- C11: in the state `fin` reached after `begin` and any sequence `ops` of flag
operations, each display-control operation sends exactly one command byte,
`0x08 |` the control mask cached after the call, and each entry-mode operation
exactly one command byte, `0x04 |` the entry-mode mask cached after the call.
`begin` itself ends with the display-control command 0x0C, clear, and the
entry-mode command 0x06; and the events of the most recent display-control
(entry-mode) operation of `ops`, or of that command of `begin` when `ops` has
none, are those of the command byte `0x08 |` (`0x04 |`) the mask cached in `fin`. -/
theorem flag_commands_carry_cached_mask (s0 : LCD74HC595) (cols lines dotsize : Nat)
    (ops : List FlagOp) (c : FlagOp) (s fin : LCD74HC595)
    (hs : s = (begin s0 cols lines dotsize).1) (hfin : fin = (runFlagOps ops s).1) :
    (c.group = FlagGroup.control →
        c.run fin = command (c.run fin).1 (0x08 ||| (c.run fin).1._displaycontrol))
    ∧ (c.group = FlagGroup.entryMode →
        c.run fin = command (c.run fin).1 (0x04 ||| (c.run fin).1._displaymode))
    ∧ (∃ front, (begin s0 cols lines dotsize).2 =
        front ++ (command s 0x0C).2 ++ (command s 0x01).2 ++ [Event.delayMicroseconds 2000]
          ++ (command s 0x06).2)
    ∧ (lastOfGroup FlagGroup.control ops s).getD (command s 0x0C).2
        = (command fin (0x08 ||| fin._displaycontrol)).2
    ∧ (lastOfGroup FlagGroup.entryMode ops s).getD (command s 0x06).2
        = (command fin (0x04 ||| fin._displaymode)).2 := by
  have hw : wiring fin = wiring s := by rw [hfin]; exact runFlagOps_wiring ops s
  have hdc : s._displaycontrol = 4 := by rw [hs, begin_state]
  have hdm : s._displaymode = 2 := by rw [hs, begin_state]
  refine ⟨flag_run_control c fin, flag_run_mode c fin, ?_, ?_, ?_⟩
  · rw [hs]; exact begin_tail_events s0 cols lines dotsize
  · rw [command_eq_of_wiring hw]
    obtain ⟨h1, h2⟩ := lastOfGroup_control ops s
    cases hl : lastOfGroup FlagGroup.control ops s with
    | some t => rw [Option.getD_some, h1 t hl, hfin]
    | none => rw [Option.getD_none, hfin, h2 hl, hdc]; rfl
  · rw [command_eq_of_wiring hw]
    obtain ⟨h1, h2⟩ := lastOfGroup_mode ops s
    cases hl : lastOfGroup FlagGroup.entryMode ops s with
    | some t => rw [Option.getD_some, h1 t hl, hfin]
    | none => rw [Option.getD_none, hfin, h2 hl, hdm]; rfl

/-- Witness for C11: after `begin(16, 2)` on `lcd0` and then `cursor()`,
`leftToRight()`, `blink()`, the cached control mask is 0x07 and the most recent
display-control operation, `blink()`, sent the command byte 0x0F. -/
theorem flag_commands_carry_cached_mask_witness :
    (runFlagOps [FlagOp.cursor, FlagOp.leftToRight, FlagOp.blink]
        (begin lcd0 16 2 LCD_5x8DOTS).1).1._displaycontrol = 0x07
    ∧ (lastOfGroup FlagGroup.control [FlagOp.cursor, FlagOp.leftToRight, FlagOp.blink]
        (begin lcd0 16 2 LCD_5x8DOTS).1).getD (command (begin lcd0 16 2 LCD_5x8DOTS).1 0x0C).2
        = (command (runFlagOps [FlagOp.cursor, FlagOp.leftToRight, FlagOp.blink]
            (begin lcd0 16 2 LCD_5x8DOTS).1).1
            (0x08 ||| (runFlagOps [FlagOp.cursor, FlagOp.leftToRight, FlagOp.blink]
              (begin lcd0 16 2 LCD_5x8DOTS).1).1._displaycontrol)).2
    ∧ FlagOp.display.run (begin lcd0 16 2 LCD_5x8DOTS).1
        = command (FlagOp.display.run (begin lcd0 16 2 LCD_5x8DOTS).1).1 0x0C :=
  have h := flag_commands_carry_cached_mask lcd0 16 2 LCD_5x8DOTS
    [FlagOp.cursor, FlagOp.leftToRight, FlagOp.blink] FlagOp.display
    (begin lcd0 16 2 LCD_5x8DOTS).1
    (runFlagOps [FlagOp.cursor, FlagOp.leftToRight, FlagOp.blink]
      (begin lcd0 16 2 LCD_5x8DOTS).1).1 rfl rfl
  have h0 := flag_commands_carry_cached_mask lcd0 16 2 LCD_5x8DOTS [] FlagOp.display
    (begin lcd0 16 2 LCD_5x8DOTS).1 (begin lcd0 16 2 LCD_5x8DOTS).1 rfl rfl
  ⟨by decide, h.2.2.2.1, h0.1 rfl⟩


/-! ## Ranges of the masks -/

theorem flag_run_control_lt8 (c : FlagOp) (s : LCD74HC595) (h : s._displaycontrol < 8) :
    (c.run s).1._displaycontrol < 8 := by
  cases c <;> first
    | exact h
    | exact lt_of_le_of_lt (andNot_le _ _) h
    | exact or_flag_lt s._displaycontrol 2 3 h (by decide)
    | exact or_flag_lt s._displaycontrol 1 3 h (by decide)
    | exact or_flag_lt s._displaycontrol 0 3 h (by decide)

theorem flag_run_mode_lt4 (c : FlagOp) (s : LCD74HC595) (h : s._displaymode < 4) :
    (c.run s).1._displaymode < 4 := by
  cases c <;> first
    | exact h
    | exact lt_of_le_of_lt (andNot_le _ _) h
    | exact or_flag_lt s._displaymode 1 2 h (by decide)
    | exact or_flag_lt s._displaymode 0 2 h (by decide)

theorem flag_run_displayfunction (c : FlagOp) (s : LCD74HC595) :
    (c.run s).1._displayfunction = s._displayfunction := by
  cases c <;> rfl

theorem runFlagOps_ranges (ops : List FlagOp) (s : LCD74HC595)
    (h1 : s._displaycontrol < 8) (h2 : s._displaymode < 4) :
    (runFlagOps ops s).1._displaycontrol < 8 ∧ (runFlagOps ops s).1._displaymode < 4
      ∧ (runFlagOps ops s).1._displayfunction = s._displayfunction := by
  induction ops generalizing s with
  | nil => exact ⟨h1, h2, rfl⟩
  | cons c rest ih =>
    simp only [runFlagOps]
    obtain ⟨a, b, d⟩ := ih (c.run s).1 (flag_run_control_lt8 c s h1) (flag_run_mode_lt4 c s h2)
    exact ⟨a, b, by rw [d, flag_run_displayfunction]⟩

theorem begin_displayfunction_fresh (ds shcp stcp rs en data : Nat) (mem : LCD74HC595)
    (cols lines dotsize : Nat) :
    (begin (ctor ds shcp stcp rs en data mem).1 cols lines dotsize).1._displayfunction
      = if lines > 1 then 0x08 else if dotsize ≠ 0 ∧ lines = 1 then 0x04 else 0 := by
  rw [begin_displayfunction, ctor_displayfunction]
  rfl

theorem or_range (op n x : Nat) (hop : op = 2 ^ n) (hx : x < 2 ^ n) :
    op ≤ op ||| x ∧ op ||| x < 2 ^ (n + 1) := by
  constructor
  · have hb : (op ||| x).testBit n = true := by
      rw [Nat.testBit_or, hop, Nat.testBit_two_pow_self]
      rfl
    have := Nat.testBit_implies_ge hb
    rw [hop]
    rw [hop] at this
    exact this
  · apply Nat.or_lt_two_pow
    · rw [hop]; exact Nat.pow_lt_pow_right (by norm_num) (by omega)
    · exact lt_trans hx (Nat.pow_lt_pow_right (by norm_num) (by omega))


/-- C19: on a constructed object, after `begin` and any sequence `ops` of flag
operations, the cached control mask is within 0x00..0x07, the entry-mode mask
within 0x00..0x03 and the function mask within 0x00..0x0C; so the command byte
of each group lies in the range of its opcode: `0x08 | control` in 0x08..0x0F,
`0x04 | entry-mode` in 0x04..0x07, `0x20 | function` in 0x20..0x2F; a further
display-control (entry-mode) operation sends one command byte in 0x08..0x0F
(0x04..0x07), and the function-set byte that `begin` sent is `0x20 |` the cached
function mask. -/
theorem flag_masks_stay_in_range (ds shcp stcp rs en data : Nat) (mem : LCD74HC595)
    (cols lines dotsize : Nat) (ops : List FlagOp) (c : FlagOp) (fin : LCD74HC595)
    (hfin : fin = (runFlagOps ops
        (begin (ctor ds shcp stcp rs en data mem).1 cols lines dotsize).1).1) :
    fin._displaycontrol ≤ 0x07 ∧ fin._displaymode ≤ 0x03 ∧ fin._displayfunction ≤ 0x0C
    ∧ (0x08 ≤ LCD_DISPLAYCONTROL ||| fin._displaycontrol
        ∧ LCD_DISPLAYCONTROL ||| fin._displaycontrol ≤ 0x0F)
    ∧ (0x04 ≤ LCD_ENTRYMODESET ||| fin._displaymode
        ∧ LCD_ENTRYMODESET ||| fin._displaymode ≤ 0x07)
    ∧ (0x20 ≤ LCD_FUNCTIONSET ||| fin._displayfunction
        ∧ LCD_FUNCTIONSET ||| fin._displayfunction ≤ 0x2F)
    ∧ (c.group = FlagGroup.control →
        ∃ b, c.run fin = command (c.run fin).1 b ∧ 0x08 ≤ b ∧ b ≤ 0x0F)
    ∧ (c.group = FlagGroup.entryMode →
        ∃ b, c.run fin = command (c.run fin).1 b ∧ 0x04 ≤ b ∧ b ≤ 0x07)
    ∧ (∃ front rest,
        (begin (ctor ds shcp stcp rs en data mem).1 cols lines dotsize).2
          = front ++ (command (ctor ds shcp stcp rs en data mem).1
              (LCD_FUNCTIONSET ||| fin._displayfunction)).2 ++ rest) := by
  have hb := begin_state (ctor ds shcp stcp rs en data mem).1 cols lines dotsize
  have hdc : (begin (ctor ds shcp stcp rs en data mem).1 cols lines dotsize).1._displaycontrol
      < 8 := by rw [hb]; exact (by decide : (4 : Nat) < 8)
  have hdm : (begin (ctor ds shcp stcp rs en data mem).1 cols lines dotsize).1._displaymode
      < 4 := by rw [hb]; exact (by decide : (2 : Nat) < 4)
  obtain ⟨r1, r2, r3⟩ := runFlagOps_ranges ops _ hdc hdm
  rw [← hfin] at r1 r2 r3
  have hdf := begin_displayfunction_fresh ds shcp stcp rs en data mem cols lines dotsize
  rw [← r3] at hdf
  have hcases : fin._displayfunction = 0x08 ∨ fin._displayfunction = 0x04
      ∨ fin._displayfunction = 0 := by
    rw [hdf]
    split_ifs <;> simp
  have hc := or_range LCD_DISPLAYCONTROL 3 fin._displaycontrol rfl r1
  have hm := or_range LCD_ENTRYMODESET 2 fin._displaymode rfl r2
  have hfs : 0x20 ≤ LCD_FUNCTIONSET ||| fin._displayfunction
      ∧ LCD_FUNCTIONSET ||| fin._displayfunction ≤ 0x2F := by
    rcases hcases with h | h | h <;> rw [h] <;> decide
  refine ⟨by omega, by omega, ?_, ⟨hc.1, ?_⟩, ⟨hm.1, ?_⟩, hfs, ?_, ?_, ?_⟩
  · rcases hcases with h | h | h <;> rw [h] <;> decide
  · have := hc.2; norm_num at this; omega
  · have := hm.2; norm_num at this; omega
  · intro hg
    have hlt := flag_run_control_lt8 c fin r1
    have hr := or_range LCD_DISPLAYCONTROL 3 (c.run fin).1._displaycontrol rfl hlt
    refine ⟨_, flag_run_control c fin hg, hr.1, ?_⟩
    have := hr.2; norm_num at this; omega
  · intro hg
    have hlt := flag_run_mode_lt4 c fin r2
    have hr := or_range LCD_ENTRYMODESET 2 (c.run fin).1._displaymode rfl hlt
    refine ⟨_, flag_run_mode c fin hg, hr.1, ?_⟩
    have := hr.2; norm_num at this; omega
  · have hev := begin_events (ctor ds shcp stcp rs en data mem).1 cols lines dotsize
    rw [← r3] at hev
    have hmod : (LCD_FUNCTIONSET ||| fin._displayfunction) % 256
        = LCD_FUNCTIONSET ||| fin._displayfunction := by
      rcases hcases with h | h | h <;> rw [h] <;> decide
    rw [hmod] at hev
    refine ⟨(sendHalf (ctor ds shcp stcp rs en data mem).1 0x03 0).2
        ++ [Event.delayMicroseconds 4500]
        ++ (sendHalf (ctor ds shcp stcp rs en data mem).1 0x03 0).2
        ++ [Event.delayMicroseconds 4500]
        ++ (sendHalf (ctor ds shcp stcp rs en data mem).1 0x03 0).2
        ++ [Event.delayMicroseconds 150]
        ++ (sendHalf (ctor ds shcp stcp rs en data mem).1 0x02 0).2,
      (send (ctor ds shcp stcp rs en data mem).1 0x0C 0).2
        ++ (send (ctor ds shcp stcp rs en data mem).1 0x01 0).2
        ++ [Event.delayMicroseconds 2000]
        ++ (send (ctor ds shcp stcp rs en data mem).1 0x06 0).2, ?_⟩
    rw [hev]
    simp only [command, List.append_assoc]

/-- Witness for C19: on `lcd0`, after `begin(16, 2)`, `cursor()` and
`autoscroll()`, the control mask is at most 0x07 and a further `blink()` sends
one command byte in 0x08..0x0F. -/
theorem flag_masks_stay_in_range_witness :
    (runFlagOps [FlagOp.cursor, FlagOp.autoscroll]
        (begin lcd0 16 2 LCD_5x8DOTS).1).1._displaycontrol ≤ 0x07
    ∧ FlagOp.blink.group = FlagGroup.control
    ∧ ∃ b, FlagOp.blink.run (runFlagOps [FlagOp.cursor, FlagOp.autoscroll]
              (begin lcd0 16 2 LCD_5x8DOTS).1).1
            = command (FlagOp.blink.run (runFlagOps [FlagOp.cursor, FlagOp.autoscroll]
                (begin lcd0 16 2 LCD_5x8DOTS).1).1).1 b
          ∧ 0x08 ≤ b ∧ b ≤ 0x0F :=
  have h := flag_masks_stay_in_range 11 12 8 PIN_RS PIN_EN PIN_DATA zeroed 16 2 LCD_5x8DOTS
    [FlagOp.cursor, FlagOp.autoscroll] FlagOp.blink
    (runFlagOps [FlagOp.cursor, FlagOp.autoscroll] (begin lcd0 16 2 LCD_5x8DOTS).1).1 rfl
  ⟨h.1, rfl, h.2.2.2.2.2.2.1 rfl⟩


/-! ## Lengths of the traces -/

theorem counts_sendHalf (s : LCD74HC595) (v mode : Nat) :
    (sendHalf s v mode).2.countP isShift = 3 ∧ (sendHalf s v mode).2.countP isDelay = 3
      ∧ (sendHalf s v mode).2.length = 12 := by
  refine ⟨rfl, rfl, rfl⟩

theorem counts_send (s : LCD74HC595) (v mode : Nat) :
    (send s v mode).2.countP isShift = 6 ∧ (send s v mode).2.countP isDelay = 6
      ∧ (send s v mode).2.length = 24 := by
  refine ⟨rfl, rfl, rfl⟩

theorem counts_command (s : LCD74HC595) (v : Nat) :
    (command s v).2.countP isShift = 6 ∧ (command s v).2.countP isDelay = 6
      ∧ (command s v).2.length = 24 :=
  counts_send s v 0

theorem counts_createChar (s : LCD74HC595) (location : Nat) (charmap : Nat → Nat) :
    (createChar s location charmap).2.countP isShift = 54
      ∧ (createChar s location charmap).2.countP isDelay = 54
      ∧ (createChar s location charmap).2.length = 216 := by
  rw [createChar_events]
  refine ⟨?_, ?_, ?_⟩ <;>
    simp [List.countP_append, List.length_append, (counts_send s _ _).1,
      (counts_send s _ _).2.1, (counts_send s _ _).2.2, (counts_command s _).1,
      (counts_command s _).2.1, (counts_command s _).2.2]

theorem counts_begin (s : LCD74HC595) (cols lines dotsize : Nat) :
    (begin s cols lines dotsize).2.countP isShift = 36
      ∧ (begin s cols lines dotsize).2.countP isDelay = 40
      ∧ (begin s cols lines dotsize).2.length = 148 := by
  rw [begin_events]
  refine ⟨?_, ?_, ?_⟩ <;>
    simp [List.countP_append, List.length_append, (counts_send s _ _).1,
      (counts_send s _ _).2.1, (counts_send s _ _).2.2, (counts_sendHalf s _ _).1,
      (counts_sendHalf s _ _).2.1, (counts_sendHalf s _ _).2.2, isShift, isDelay]

theorem counts_run (op : Op) (s : LCD74HC595) (out : Out) (h : op.run s = some out) :
    out.2.countP isShift = op.emits ∧ out.2.countP isDelay = op.delays
      ∧ out.2.length = 3 * op.emits + op.delays := by
  cases op with
  | setCursor col row =>
    simp only [Op.run, setCursor] at h
    split at h
    · simp only [Option.some.injEq] at h
      rw [← h]
      exact counts_command s _
    · exact absurd h (by simp)
  | begin cols lines dotsize =>
    simp only [Op.run, Option.some.injEq] at h
    rw [← h]
    exact counts_begin s cols lines dotsize
  | createChar location charmap =>
    simp only [Op.run, Option.some.injEq] at h
    rw [← h]
    exact counts_createChar s location charmap
  | _ =>
    simp only [Op.run, Option.some.injEq] at h
    rw [← h]
    refine ⟨rfl, rfl, rfl⟩

/-- C15: a full byte transfer (`command` or `write`) is `send`, which is two
half-transfers: 6 emits and 6 delays; `createChar` is 9 full byte transfers, 54
emits; `begin` is 4 half-transfers and 4 full byte transfers, 36 emits. Every
public method call returns (the one exception is `setCursor` on an object with
zero lines, which reads outside `_row_offsets`), and the number of emits, of
delays and of events of its trace is the number fixed for the method by
`Op.emits` and `Op.delays`, whatever the arguments and the state. -/
theorem fixed_finite_sequences (op : Op) (s : LCD74HC595) :
    (∀ v, command s v = send s v 0)
    ∧ (∀ v, (write s v).2 = send s v 1)
    ∧ (∀ v mode,
        (send s v mode).2 = (sendHalf s (v >>> 4) mode).2 ++ (sendHalf s (v &&& 0xF) mode).2
        ∧ (send s v mode).2.countP isShift = 6 ∧ (send s v mode).2.countP isDelay = 6)
    ∧ (∀ location charmap,
        (createChar s location charmap).2 =
          (command s (LCD_SETCGRAMADDR ||| ((location &&& 0x7) <<< 3))).2
            ++ (send s (charmap 0) 1).2 ++ (send s (charmap 1) 1).2
            ++ (send s (charmap 2) 1).2 ++ (send s (charmap 3) 1).2
            ++ (send s (charmap 4) 1).2 ++ (send s (charmap 5) 1).2
            ++ (send s (charmap 6) 1).2 ++ (send s (charmap 7) 1).2
        ∧ (createChar s location charmap).2.countP isShift = 54)
    ∧ (∀ cols lines dotsize,
        (∃ fs, (begin s cols lines dotsize).2 =
          (sendHalf s 0x03 0).2 ++ [Event.delayMicroseconds 4500]
            ++ (sendHalf s 0x03 0).2 ++ [Event.delayMicroseconds 4500]
            ++ (sendHalf s 0x03 0).2 ++ [Event.delayMicroseconds 150]
            ++ (sendHalf s 0x02 0).2
            ++ (send s fs 0).2 ++ (send s 0x0C 0).2
            ++ (send s 0x01 0).2 ++ [Event.delayMicroseconds 2000]
            ++ (send s 0x06 0).2)
        ∧ (begin s cols lines dotsize).2.countP isShift = 36)
    ∧ ((s._numlines ≠ 0 ∨ ∀ col row, op ≠ Op.setCursor col row) → (op.run s).isSome = true)
    ∧ ∀ out, op.run s = some out →
        out.2.countP isShift = op.emits ∧ out.2.countP isDelay = op.delays
          ∧ out.2.length = 3 * op.emits + op.delays := by
  refine ⟨fun _ => rfl, fun _ => rfl, fun v mode => ⟨?_, (counts_send s v mode).1,
    (counts_send s v mode).2.1⟩, fun location charmap => ⟨?_, (counts_createChar s _ _).1⟩,
    fun cols lines dotsize => ⟨⟨_, begin_events s cols lines dotsize⟩, (counts_begin s _ _ _).1⟩,
    run_isSome op s, counts_run op s⟩
  · simp only [send, sendHalf_state, sendHalf_mod256, sendHalf_and15]
  · rw [createChar_events]

/-- Witness for C15: `createChar(3, p)` on `lcd0` returns a trace of 54 emits,
54 delays and 216 events. -/
theorem fixed_finite_sequences_witness :
    Op.run (Op.createChar 3 (fun i => i)) lcd0 = some (createChar lcd0 3 (fun i => i))
    ∧ (createChar lcd0 3 (fun i => i)).2.countP isShift = 54
    ∧ (createChar lcd0 3 (fun i => i)).2.countP isDelay = 54
    ∧ (createChar lcd0 3 (fun i => i)).2.length = 3 * 54 + 54 :=
  ⟨rfl, (fixed_finite_sequences (Op.createChar 3 (fun i => i)) lcd0).2.2.2.2.2.2
    (createChar lcd0 3 (fun i => i)) rfl⟩


/-! ## Calling `begin` again -/

theorem run_wiring (op : Op) (s : LCD74HC595) (out : Out) (h : op.run s = some out) :
    wiring out.1 = wiring s := by
  cases op with
  | setCursor col row =>
    simp only [Op.run, setCursor] at h
    split at h
    · simp only [Option.some.injEq] at h
      rw [← h]; rfl
    · exact absurd h (by simp)
  | begin cols lines dotsize =>
    simp only [Op.run, Option.some.injEq] at h
    rw [← h]
    exact begin_wiring s cols lines dotsize
  | createChar location charmap =>
    simp only [Op.run, Option.some.injEq] at h
    rw [← h, createChar_events]
  | _ =>
    simp only [Op.run, Option.some.injEq] at h
    rw [← h]; rfl

theorem run_displayfunction (op : Op) (s : LCD74HC595) (out : Out) (h : op.run s = some out)
    (hop : ∀ cols lines dotsize, op ≠ Op.begin cols lines dotsize) :
    out.1._displayfunction = s._displayfunction := by
  cases op with
  | setCursor col row =>
    simp only [Op.run, setCursor] at h
    split at h
    · simp only [Option.some.injEq] at h
      rw [← h]; rfl
    · exact absurd h (by simp)
  | begin cols lines dotsize => exact absurd rfl (hop cols lines dotsize)
  | createChar location charmap =>
    simp only [Op.run, Option.some.injEq] at h
    rw [← h, createChar_events]
  | _ =>
    simp only [Op.run, Option.some.injEq] at h
    rw [← h]; rfl

theorem begin_function_flags_ok (s : LCD74HC595) (cols lines dotsize : Nat)
    (h : s._displayfunction = 0 ∨ s._displayfunction = 4 ∨ s._displayfunction = 8
      ∨ s._displayfunction = 12) :
    ((begin s cols lines dotsize).1._displayfunction = 0
      ∨ (begin s cols lines dotsize).1._displayfunction = 4
      ∨ (begin s cols lines dotsize).1._displayfunction = 8
      ∨ (begin s cols lines dotsize).1._displayfunction = 12)
    ∧ (begin s cols lines dotsize).1._displayfunction
        = s._displayfunction |||
            (if lines > 1 then 0x08 else if dotsize ≠ 0 ∧ lines = 1 then 0x04 else 0) := by
  rw [begin_displayfunction]
  rcases h with h | h | h | h <;> rw [h] <;> split_ifs <;> simp +decide

theorem run_function_flags_ok (op : Op) (s : LCD74HC595) (out : Out) (h : op.run s = some out)
    (hs : s._displayfunction = 0 ∨ s._displayfunction = 4 ∨ s._displayfunction = 8
      ∨ s._displayfunction = 12) :
    out.1._displayfunction = 0 ∨ out.1._displayfunction = 4 ∨ out.1._displayfunction = 8
      ∨ out.1._displayfunction = 12 := by
  by_cases hb : ∃ cols lines dotsize, op = Op.begin cols lines dotsize
  · obtain ⟨cols, lines, dotsize, rfl⟩ := hb
    simp only [Op.run, Option.some.injEq] at h
    rw [← h]
    exact (begin_function_flags_ok s cols lines dotsize hs).1
  · rw [run_displayfunction op s out h (fun c l d hop => hb ⟨c, l, d, hop⟩)]
    exact hs

theorem runOps_cons (op : Op) (rest : List Op) (s : LCD74HC595) (out : Out)
    (h : runOps (op :: rest) s = some out) :
    ∃ r1 r2, op.run s = some r1 ∧ runOps rest r1.1 = some r2 ∧ out = (r2.1, r1.2 ++ r2.2) := by
  simp only [runOps] at h
  cases h1 : op.run s with
  | none => rw [h1] at h; exact absurd h (by simp)
  | some r1 =>
    rw [h1] at h
    simp only at h
    cases h2 : runOps rest r1.1 with
    | none => rw [h2] at h; exact absurd h (by simp)
    | some r2 =>
      rw [h2] at h
      simp only [Option.some.injEq] at h
      exact ⟨r1, r2, rfl, h2, h.symm⟩

theorem runOps_invariants (ops : List Op) (s : LCD74HC595) (out : Out)
    (h : runOps ops s = some out)
    (hs : s._displayfunction = 0 ∨ s._displayfunction = 4 ∨ s._displayfunction = 8
      ∨ s._displayfunction = 12) :
    wiring out.1 = wiring s
      ∧ (out.1._displayfunction = 0 ∨ out.1._displayfunction = 4 ∨ out.1._displayfunction = 8
          ∨ out.1._displayfunction = 12) := by
  induction ops generalizing s out with
  | nil =>
    simp only [runOps, Option.some.injEq] at h
    rw [← h]
    exact ⟨rfl, hs⟩
  | cons op rest ih =>
    obtain ⟨r1, r2, h1, h2, h3⟩ := runOps_cons op rest s out h
    obtain ⟨a, b⟩ := ih r1.1 r2 h2 (run_function_flags_ok op s r1 h1 hs)
    rw [h3]
    exact ⟨by rw [a]; exact run_wiring op s r1 h1, b⟩


theorem begin_events_of_wiring {s f : LCD74HC595} (h : wiring s = wiring f)
    (cols lines dotsize : Nat) :
    (begin s cols lines dotsize).2 =
      ((sendHalf f 0x03 0).2 ++ [Event.delayMicroseconds 4500]
        ++ (sendHalf f 0x03 0).2 ++ [Event.delayMicroseconds 4500]
        ++ (sendHalf f 0x03 0).2 ++ [Event.delayMicroseconds 150]
        ++ (sendHalf f 0x02 0).2)
      ++ (command f ((LCD_FUNCTIONSET ||| (begin s cols lines dotsize).1._displayfunction)
            % 256)).2
      ++ ((command f 0x0C).2 ++ (command f 0x01).2 ++ [Event.delayMicroseconds 2000]
            ++ (command f 0x06).2) := by
  rw [begin_events, sendHalf_eq_of_wiring h, sendHalf_eq_of_wiring h, send_eq_of_wiring h,
    send_eq_of_wiring h, send_eq_of_wiring h, send_eq_of_wiring h]
  simp only [command, List.append_assoc]

theorem function_set_mod (x : Nat) (h : x = 0 ∨ x = 4 ∨ x = 8 ∨ x = 12) :
    (LCD_FUNCTIONSET ||| x) % 256 = LCD_FUNCTIONSET ||| x := by
  rcases h with h | h | h | h <;> rw [h] <;> decide

/-- C12, counterexample: on `lcd0`, after `begin(16, 2)`, the call `begin(16, 1)`
leaves the function flags 0x08 and sends the function-set byte 0x28, while
`begin(16, 1)` on the fresh `lcd0` leaves 0x00 and sends 0x20; the two traces
differ. -/
theorem begin_again_keeps_two_line_flag :
    runOps [Op.begin 16 2 LCD_5x8DOTS] lcd0 = some (begin lcd0 16 2 LCD_5x8DOTS)
    ∧ (begin (begin lcd0 16 2 LCD_5x8DOTS).1 16 1 LCD_5x8DOTS).1._displayfunction = 0x08
    ∧ (begin lcd0 16 1 LCD_5x8DOTS).1._displayfunction = 0x00
    ∧ (begin (begin lcd0 16 2 LCD_5x8DOTS).1 16 1 LCD_5x8DOTS).2
        ≠ (begin lcd0 16 1 LCD_5x8DOTS).2 := by
  refine ⟨by decide, by decide, by decide, by decide⟩


/-- C12, amended: let `f` be a freshly constructed object and `mid` the result of
an earlier `begin` and any further public method calls on it. Then
`begin(cols, lines, dotsize)` on `mid` leaves the same control flags, entry-mode
flags, line count and row-offset table as on `f`, and the same events except
for the function-set command byte: the function flags it leaves are the earlier
function flags OR-ed with those the call leaves on `f`, and the function-set
byte is `0x20 |` these. When the earlier function flags are contained in those
of the fresh call, events and function flags are the same as on `f`. -/
theorem begin_again_accumulates_function_flags (ds shcp stcp rs en data : Nat)
    (mem : LCD74HC595) (cols0 lines0 dotsize0 : Nat) (ops : List Op) (f : LCD74HC595)
    (mid : Out) (hf : f = (ctor ds shcp stcp rs en data mem).1)
    (hreach : runOps (Op.begin cols0 lines0 dotsize0 :: ops) f = some mid)
    (cols lines dotsize : Nat) :
    (begin mid.1 cols lines dotsize).1._displaycontrol
        = (begin f cols lines dotsize).1._displaycontrol
    ∧ (begin mid.1 cols lines dotsize).1._displaymode
        = (begin f cols lines dotsize).1._displaymode
    ∧ (begin mid.1 cols lines dotsize).1._numlines = (begin f cols lines dotsize).1._numlines
    ∧ (begin mid.1 cols lines dotsize).1._row_offsets
        = (begin f cols lines dotsize).1._row_offsets
    ∧ (begin mid.1 cols lines dotsize).1._displayfunction
        = mid.1._displayfunction ||| (begin f cols lines dotsize).1._displayfunction
    ∧ (∃ front rest,
        (begin f cols lines dotsize).2
          = front ++ (command f (0x20 ||| (begin f cols lines dotsize).1._displayfunction)).2
              ++ rest
        ∧ (begin mid.1 cols lines dotsize).2
          = front ++ (command f (0x20 ||| (begin mid.1 cols lines dotsize).1._displayfunction)).2
              ++ rest)
    ∧ (mid.1._displayfunction ||| (begin f cols lines dotsize).1._displayfunction
          = (begin f cols lines dotsize).1._displayfunction →
        (begin mid.1 cols lines dotsize).2 = (begin f cols lines dotsize).2
        ∧ (begin mid.1 cols lines dotsize).1._displayfunction
            = (begin f cols lines dotsize).1._displayfunction) := by
  have hf0 : f._displayfunction = 0 := by rw [hf]; rfl
  have hinv := runOps_invariants _ f mid hreach (Or.inl hf0)
  obtain ⟨hw, hmid⟩ := hinv
  have hfresh := begin_function_flags_ok f cols lines dotsize (Or.inl hf0)
  have hagain := begin_function_flags_ok mid.1 cols lines dotsize hmid
  have hfdf : (begin f cols lines dotsize).1._displayfunction
      = (if lines > 1 then 0x08 else if dotsize ≠ 0 ∧ lines = 1 then 0x04 else 0) := by
    rw [hfresh.2, hf0, Nat.zero_or]
  have hdf : (begin mid.1 cols lines dotsize).1._displayfunction
      = mid.1._displayfunction ||| (begin f cols lines dotsize).1._displayfunction := by
    rw [hagain.2, hfdf]
  have hevf := begin_events_of_wiring (rfl : wiring f = wiring f) cols lines dotsize
  have hevm := begin_events_of_wiring hw cols lines dotsize
  rw [function_set_mod _ hfresh.1] at hevf
  rw [function_set_mod _ hagain.1] at hevm
  refine ⟨?_, ?_, ?_, ?_, hdf, ⟨_, _, hevf, hevm⟩, fun hsub => ?_⟩
  · rw [begin_state mid.1, begin_state f]
  · rw [begin_state mid.1, begin_state f]
  · rw [begin_numlines, begin_numlines]
  · rw [begin_row_offsets, begin_row_offsets]
  · have heq : (begin mid.1 cols lines dotsize).1._displayfunction
        = (begin f cols lines dotsize).1._displayfunction := by rw [hdf, hsub]
    refine ⟨?_, heq⟩
    rw [hevm, hevf, heq]

/-- Witness for C12 (amended): on `lcd0`, after `begin(16, 1)` and `clear()`,
the call `begin(16, 2)` produces the same events and function flags as on the
fresh `lcd0`. -/
theorem begin_again_accumulates_function_flags_witness :
    runOps [Op.begin 16 1 LCD_5x8DOTS, Op.clear] lcd0
        = some ((clear (begin lcd0 16 1 LCD_5x8DOTS).1).1,
            (begin lcd0 16 1 LCD_5x8DOTS).2 ++ ((clear (begin lcd0 16 1 LCD_5x8DOTS).1).2 ++ []))
    ∧ (begin (clear (begin lcd0 16 1 LCD_5x8DOTS).1).1 16 2 LCD_5x8DOTS).2
        = (begin lcd0 16 2 LCD_5x8DOTS).2
    ∧ (begin (clear (begin lcd0 16 1 LCD_5x8DOTS).1).1 16 2 LCD_5x8DOTS).1._displayfunction
        = (begin lcd0 16 2 LCD_5x8DOTS).1._displayfunction :=
  have hr : runOps [Op.begin 16 1 LCD_5x8DOTS, Op.clear] lcd0
      = some ((clear (begin lcd0 16 1 LCD_5x8DOTS).1).1,
          (begin lcd0 16 1 LCD_5x8DOTS).2 ++ ((clear (begin lcd0 16 1 LCD_5x8DOTS).1).2 ++ [])) :=
    rfl
  have h := begin_again_accumulates_function_flags 11 12 8 PIN_RS PIN_EN PIN_DATA zeroed
    16 1 LCD_5x8DOTS [Op.clear] lcd0 _ rfl hr 16 2 LCD_5x8DOTS
  ⟨hr, h.2.2.2.2.2.2 (by decide)⟩


/-! ## Enable pulses -/

theorem latchedBytes_append (a b : List Event) :
    latchedBytes (a ++ b) = latchedBytes a ++ latchedBytes b := by
  induction a with
  | nil => rfl
  | cons e t ih => cases e <;> simp [latchedBytes, ih]

theorem Pulsed.join {enPos : Nat} {a b : List Nat} (ha : Pulsed enPos a)
    (hb : Pulsed enPos b) : Pulsed enPos (a ++ b) := by
  induction ha with
  | nil => simpa using hb
  | pulse b0 b1 h0 h1 h2 _ ih => exact Pulsed.pulse b0 b1 h0 h1 h2 ih

theorem Pulsed.neighbours {enPos : Nat} {t : List Nat} (h : Pulsed enPos t) :
    ∀ i b, t[i]? = some b → b.testBit enPos = true →
      0 < i ∧ ∃ p, t[i - 1]? = some p ∧ t[i + 1]? = some p ∧ p.testBit enPos = false
        ∧ ∀ j, j ≠ enPos → b.testBit j = p.testBit j := by
  induction h with
  | nil => intro i b hi; simp at hi
  | pulse b0 b1 h0 h1 h2 _ ih =>
    intro i b hi hb
    match i, hi with
    | 0, hi =>
      simp only [List.getElem?_cons_zero, Option.some.injEq] at hi
      rw [← hi, h0] at hb
      exact absurd hb (by simp)
    | 1, hi =>
      simp only [List.getElem?_cons_succ, List.getElem?_cons_zero, Option.some.injEq] at hi
      subst hi
      exact ⟨Nat.one_pos, b0, by simp, by simp, h0, h2⟩
    | 2, hi =>
      simp only [List.getElem?_cons_succ, List.getElem?_cons_zero, Option.some.injEq] at hi
      rw [← hi, h0] at hb
      exact absurd hb (by simp)
    | k + 3, hi =>
      simp only [List.getElem?_cons_succ] at hi
      obtain ⟨hk, p, hp1, hp2, hp3, hp4⟩ := ih k b hi hb
      refine ⟨Nat.succ_pos _, p, ?_, ?_, hp3, hp4⟩
      · obtain ⟨m, rfl⟩ : ∃ m, k = m + 1 := ⟨k - 1, by omega⟩
        simpa using hp1
      · simpa using hp2

theorem Pulsed.last {enPos : Nat} {t : List Nat} (h : Pulsed enPos t) :
    ∀ b, t.getLast? = some b → b.testBit enPos = false := by
  induction h with
  | nil => intro b hb; simp at hb
  | pulse b0 b1 h0 h1 h2 ht ih =>
    intro b hb
    rename_i t'
    cases t' with
    | nil =>
      simp at hb
      rw [← hb]; exact h0
    | cons x xs =>
      apply ih b
      simpa [List.getLast?_cons_cons] using hb


theorem shiftByte_eq_of_wiring {s f : LCD74HC595} (h : wiring s = wiring f) (rs en d : Nat) :
    shiftByte s rs en d = shiftByte f rs en d := by
  simp only [wiring, Prod.mk.injEq] at h
  obtain ⟨_, _, _, h4, h5, h6⟩ := h
  simp only [shiftByte, h4, h5, h6]

theorem latchedBytes_sendHalf (s : LCD74HC595) (v mode : Nat) :
    latchedBytes (sendHalf s v mode).2
      = [shiftByte s mode 0 v, shiftByte s mode 1 v, shiftByte s mode 0 v] := rfl

theorem pulsed_sendHalf (ds shcp stcp rsPos enPos dataPos : Nat) (mem : LCD74HC595)
    (hv : ValidPins rsPos enPos dataPos) (s : LCD74HC595)
    (hw : wiring s = wiring (ctor ds shcp stcp rsPos enPos dataPos mem).1) (v mode : Nat) :
    Pulsed enPos (latchedBytes (sendHalf s v mode).2) := by
  obtain ⟨hd, hr, he, hne, hrd, hed⟩ := hv
  rw [latchedBytes_sendHalf, shiftByte_eq_of_wiring hw, shiftByte_eq_of_wiring hw,
    shiftByte_ctor, shiftByte_ctor]
  refine Pulsed.pulse _ _ ?_ ?_ ?_ Pulsed.nil
  · rw [testBit_composedByte]
    by_cases h4 : dataPos ≤ enPos
    · have h5 : ¬ enPos - dataPos < 4 := by omega
      simp [hne, h4, h5]
    · simp [hne, h4]
  · rw [testBit_composedByte]
    simp [he]
  · intro j hj
    have hj' : ¬ enPos = j := fun h => hj h.symm
    rw [testBit_composedByte, testBit_composedByte]
    simp [hj']

theorem pulsed_delay (enPos us : Nat) :
    Pulsed enPos (latchedBytes [Event.delayMicroseconds us]) := Pulsed.nil

theorem pulsed_send (ds shcp stcp rsPos enPos dataPos : Nat) (mem : LCD74HC595)
    (hv : ValidPins rsPos enPos dataPos) (s : LCD74HC595)
    (hw : wiring s = wiring (ctor ds shcp stcp rsPos enPos dataPos mem).1) (v mode : Nat) :
    Pulsed enPos (latchedBytes (send s v mode).2) := by
  simp only [send, sendHalf_state, latchedBytes_append]
  exact (pulsed_sendHalf ds shcp stcp rsPos enPos dataPos mem hv s hw _ mode).join
    (pulsed_sendHalf ds shcp stcp rsPos enPos dataPos mem hv s hw v mode)

theorem pulsed_run (ds shcp stcp rsPos enPos dataPos : Nat) (mem : LCD74HC595)
    (hv : ValidPins rsPos enPos dataPos) (op : Op) (s : LCD74HC595) (out : Out)
    (hw : wiring s = wiring (ctor ds shcp stcp rsPos enPos dataPos mem).1)
    (h : op.run s = some out) :
    Pulsed enPos (latchedBytes out.2) := by
  have hsend := fun (s' : LCD74HC595) (hw' : wiring s' = wiring s) (v mode : Nat) =>
    pulsed_send ds shcp stcp rsPos enPos dataPos mem hv s' (hw'.trans hw) v mode
  have hhalf := fun (v mode : Nat) =>
    pulsed_sendHalf ds shcp stcp rsPos enPos dataPos mem hv s hw v mode
  cases op with
  | setCursor col row =>
    simp only [Op.run, setCursor] at h
    split at h
    · simp only [Option.some.injEq] at h
      rw [← h]
      exact hsend s rfl _ 0
    · exact absurd h (by simp)
  | begin cols lines dotsize =>
    simp only [Op.run, Option.some.injEq] at h
    rw [← h, begin_events]
    simp only [latchedBytes_append]
    exact (((((((((((hhalf _ 0).join (pulsed_delay enPos _)).join
      (hhalf _ 0)).join (pulsed_delay enPos _)).join
      (hhalf _ 0)).join (pulsed_delay enPos _)).join
      (hhalf _ 0)).join (hsend s rfl _ 0)).join (hsend s rfl _ 0)).join
      (hsend s rfl _ 0)).join (pulsed_delay enPos _)).join (hsend s rfl _ 0)
  | createChar location charmap =>
    simp only [Op.run, Option.some.injEq] at h
    rw [← h, createChar_events]
    simp only [latchedBytes_append, command]
    exact ((((((((hsend s rfl _ 0).join (hsend s rfl _ 1)).join
      (hsend s rfl _ 1)).join (hsend s rfl _ 1)).join (hsend s rfl _ 1)).join
      (hsend s rfl _ 1)).join (hsend s rfl _ 1)).join (hsend s rfl _ 1)).join
      (hsend s rfl _ 1)
  | clear =>
    simp only [Op.run, Option.some.injEq] at h
    rw [← h]
    simp only [clear, command, latchedBytes_append]
    exact (hsend s rfl _ 0).join (pulsed_delay enPos _)
  | home =>
    simp only [Op.run, Option.some.injEq] at h
    rw [← h]
    simp only [home, command, latchedBytes_append]
    exact (hsend s rfl _ 0).join (pulsed_delay enPos _)
  | setRowOffsets r0 r1 r2 r3 =>
    simp only [Op.run, Option.some.injEq] at h
    rw [← h]
    exact Pulsed.nil
  | write value =>
    simp only [Op.run, Option.some.injEq] at h
    rw [← h]
    exact hsend s rfl value 1
  | _ =>
    simp only [Op.run, Option.some.injEq] at h
    rw [← h]
    exact hsend _ rfl _ 0

theorem pulsed_runOps (ds shcp stcp rsPos enPos dataPos : Nat) (mem : LCD74HC595)
    (hv : ValidPins rsPos enPos dataPos) (ops : List Op) (s : LCD74HC595) (out : Out)
    (hw : wiring s = wiring (ctor ds shcp stcp rsPos enPos dataPos mem).1)
    (h : runOps ops s = some out) :
    Pulsed enPos (latchedBytes out.2)
      ∧ wiring out.1 = wiring (ctor ds shcp stcp rsPos enPos dataPos mem).1 := by
  induction ops generalizing s out with
  | nil =>
    simp only [runOps, Option.some.injEq] at h
    rw [← h]
    exact ⟨Pulsed.nil, hw⟩
  | cons op rest ih =>
    obtain ⟨r1, r2, h1, h2, h3⟩ := runOps_cons op rest s out h
    have hw1 : wiring r1.1 = wiring (ctor ds shcp stcp rsPos enPos dataPos mem).1 :=
      (run_wiring op s r1 h1).trans hw
    obtain ⟨a, b⟩ := ih r1.1 r2 hw1 h2
    rw [h3]
    simp only [latchedBytes_append]
    exact ⟨(pulsed_run ds shcp stcp rsPos enPos dataPos mem hv op s r1 hw h1).join a, b⟩

theorem runOps_isSome (ops : List Op) (s : LCD74HC595)
    (h : ∀ op ∈ ops, ∀ col row, op ≠ Op.setCursor col row) : (runOps ops s).isSome = true := by
  induction ops generalizing s with
  | nil => rfl
  | cons op rest ih =>
    have h1 := run_isSome op s (Or.inr (h op (List.mem_cons_self _ _)))
    obtain ⟨r1, hr1⟩ := Option.isSome_iff_exists.mp h1
    have h2 := ih r1.1 (fun o ho => h o (List.mem_cons_of_mem _ ho))
    obtain ⟨r2, hr2⟩ := Option.isSome_iff_exists.mp h2
    simp only [runOps, hr1, hr2]
    rfl


theorem nibble_eq_of_bits (b p enPos dataPos : Nat)
    (hen : enPos < dataPos ∨ dataPos + 3 < enPos)
    (h : ∀ j, j ≠ enPos → b.testBit j = p.testBit j) :
    (p >>> dataPos) &&& 0x0F = (b >>> dataPos) &&& 0x0F := by
  apply Nat.eq_of_testBit_eq
  intro j
  simp only [Nat.testBit_and, Nat.testBit_shiftRight, testBit_15]
  by_cases hj : j < 4
  · rw [h (dataPos + j) (by omega)]
  · simp [hj]

/-- C20: on an object constructed with a valid pin assignment, let `out` be the
result of any sequence of public method calls. In the sequence of bytes latched
onto the shift register, every byte with the enable bit set is not the first,
and the byte right before it and the byte right after it are one and the same
byte `p`, with the enable bit clear, the same register-select bit and the same
data nibble (every bit other than enable is the same); the last byte latched
has enable clear, and so has the last byte latched by any further method call. A
sequence without `setCursor` always returns. -/
theorem enable_pulse_bracketed (ds shcp stcp rsPos enPos dataPos : Nat) (mem : LCD74HC595)
    (hv : ValidPins rsPos enPos dataPos) (ops : List Op) (out : Out)
    (hrun : runOps ops (ctor ds shcp stcp rsPos enPos dataPos mem).1 = some out) :
    (∀ i b, (latchedBytes out.2)[i]? = some b → b.testBit enPos = true →
        0 < i ∧ ∃ p, (latchedBytes out.2)[i - 1]? = some p
          ∧ (latchedBytes out.2)[i + 1]? = some p
          ∧ p.testBit enPos = false
          ∧ p.testBit rsPos = b.testBit rsPos
          ∧ (p >>> dataPos) &&& 0x0F = (b >>> dataPos) &&& 0x0F
          ∧ ∀ j, j ≠ enPos → b.testBit j = p.testBit j)
    ∧ (∀ b, (latchedBytes out.2).getLast? = some b → b.testBit enPos = false)
    ∧ (∀ (op : Op) (out' : Out), op.run out.1 = some out' →
        ∀ b, (latchedBytes out'.2).getLast? = some b → b.testBit enPos = false)
    ∧ ((∀ op ∈ ops, ∀ col row, op ≠ Op.setCursor col row) →
        (runOps ops (ctor ds shcp stcp rsPos enPos dataPos mem).1).isSome = true) := by
  obtain ⟨hp, hw⟩ := pulsed_runOps ds shcp stcp rsPos enPos dataPos mem hv ops _ out rfl hrun
  refine ⟨?_, hp.last, ?_, runOps_isSome ops _⟩
  · intro i b hi hb
    obtain ⟨h0, p, h1, h2, h3, h4⟩ := hp.neighbours i b hi hb
    refine ⟨h0, p, h1, h2, h3, (h4 rsPos hv.2.2.2.1).symm, ?_, h4⟩
    exact nibble_eq_of_bits b p enPos dataPos hv.2.2.2.2.2 h4
  · intro op out' hop
    exact (pulsed_run ds shcp stcp rsPos enPos dataPos mem hv op out.1 out' hw hop).last

/-- Witness for C20: on `lcd0`, `begin(16, 2)`, `setCursor(0, 1)`, `write(0x41)`
return; the second byte latched is 0x1C (enable set, nibble 0x3) and the bytes
before and after it are one byte with enable clear. -/
theorem enable_pulse_bracketed_witness :
    ValidPins PIN_RS PIN_EN PIN_DATA
    ∧ ∃ out, runOps [Op.begin 16 2 LCD_5x8DOTS, Op.setCursor 0 1, Op.write 0x41] lcd0 = some out
      ∧ (latchedBytes out.2)[1]? = some 0x1C
      ∧ (0x1C : Nat).testBit PIN_EN = true
      ∧ ∃ p, (latchedBytes out.2)[1 - 1]? = some p ∧ (latchedBytes out.2)[1 + 1]? = some p
          ∧ p.testBit PIN_EN = false ∧ p.testBit PIN_RS = (0x1C : Nat).testBit PIN_RS
          ∧ (p >>> PIN_DATA) &&& 0x0F = (0x1C >>> PIN_DATA) &&& 0x0F :=
  have hout : runOps [Op.begin 16 2 LCD_5x8DOTS, Op.setCursor 0 1, Op.write 0x41] lcd0
      = some ((begin lcd0 16 2 LCD_5x8DOTS).1,
          (begin lcd0 16 2 LCD_5x8DOTS).2
            ++ ((command (begin lcd0 16 2 LCD_5x8DOTS).1 0xC0).2
              ++ ((send (begin lcd0 16 2 LCD_5x8DOTS).1 0x41 1).2 ++ []))) := rfl
  have h1 : (latchedBytes ((begin lcd0 16 2 LCD_5x8DOTS).1,
          (begin lcd0 16 2 LCD_5x8DOTS).2
            ++ ((command (begin lcd0 16 2 LCD_5x8DOTS).1 0xC0).2
              ++ ((send (begin lcd0 16 2 LCD_5x8DOTS).1 0x41 1).2 ++ []))).2)[1]?
      = some 0x1C := by decide
  have hv : ValidPins PIN_RS PIN_EN PIN_DATA := by decide
  let ⟨_, p, hp0, hp2, hp3, hp4, hp5, _⟩ :=
    (enable_pulse_bracketed 11 12 8 PIN_RS PIN_EN PIN_DATA zeroed hv
      [Op.begin 16 2 LCD_5x8DOTS, Op.setCursor 0 1, Op.write 0x41] _ hout).1 1 0x1C h1
      (by decide)
  ⟨hv, _, hout, h1, by decide, p, hp0, hp2, hp3, hp4, hp5⟩

end LCD74HC595
